import Mathlib

/-!
Verification of the Gnuk OpenPGP-card Data Object engine (`src/openpgp-do.c`)
against its natural-language specification.

The C source is shallowly embedded: machine integers become `Nat` with explicit
masking, flash memory pools become `List Nat` of bytes, and the volatile index
tables become explicit record state.  Collaborator subsystems that are not part
of the repository (flash driver cell primitives, AES, SHA-1, RNG, modulus
computation — `flash.c`, `gnuk.h`, `polarssl`) are modelled from the spec where
a claim depends on them; each such definition is marked `Modelled from the
spec:` in its doc comment.
-/

namespace Gnuk

/-! ## Cell discriminator constants

`NR_COUNTER_DS`, `NR_COUNTER_DS_LSB` and `NR_EMPTY` are forced by the literals
in `openpgp-do.c` (`0x80`, `0xc0` arithmetic in `gpg_data_scan`) and by the
spec §3 (`NR_EMPTY = 0xFF`).  `NR_BOOL_PW1_LIFETIME` and `NR_COUNTER_123` come
from the missing `gnuk.h`; the spec only requires them to be distinct cell
discriminators outside the DO range `0x01..0x7F`, the DSC ranges
`0x80..0xbf` / `0xc0..0xc3`, and distinct from `NR_EMPTY`. -/

def NR_EMPTY : Nat := 0xff
def NR_COUNTER_DS : Nat := 0x80
def NR_COUNTER_DS_LSB : Nat := 0xc0
/-- Modelled from the spec: discriminator of the PW1-lifetime marker cell
(value taken outside every range `gpg_data_scan` treats specially). -/
def NR_BOOL_PW1_LIFETIME : Nat := 0xf0
/-- Modelled from the spec: discriminator of the PIN-error counter cell. -/
def NR_COUNTER_123 : Nat := 0xf1

/-! ## DO numbers

`gnuk.h` is not in the repository; the spec fixes the DO number range to
`0x01..0x7F` and `openpgp-do.c` fixes the association between DO numbers and
slots of `do_ptr` (the initializers `&do_ptr[0] … &do_ptr[13]` of
`gpg_do_table`, and `do_tag_to_nr`).  We take `NR_DO__FIRST__ = 1` so that
slot `i` of `do_ptr` holds DO number `i + 1`. -/

def NR_DO__FIRST__ : Nat := 1
def NR_DO_SEX : Nat := 1
def NR_DO_FP_SIG : Nat := 2
def NR_DO_FP_DEC : Nat := 3
def NR_DO_FP_AUT : Nat := 4
def NR_DO_CAFP_1 : Nat := 5
def NR_DO_CAFP_2 : Nat := 6
def NR_DO_CAFP_3 : Nat := 7
def NR_DO_KGTIME_SIG : Nat := 8
def NR_DO_KGTIME_DEC : Nat := 9
def NR_DO_KGTIME_AUT : Nat := 10
def NR_DO_LOGIN_DATA : Nat := 11
def NR_DO_URL : Nat := 12
def NR_DO_NAME : Nat := 13
def NR_DO_LANGUAGE : Nat := 14
def NR_DO_KEYSTRING_PW1 : Nat := 15
def NR_DO_KEYSTRING_RC : Nat := 16
def NR_DO_PRVKEY_SIG : Nat := 17
def NR_DO_PRVKEY_DEC : Nat := 18
def NR_DO_PRVKEY_AUT : Nat := 19
def NR_DO__LAST__ : Nat := 20

def PW_ERR_PW1 : Nat := 0
def PW_ERR_RC : Nat := 1
def PW_ERR_PW3 : Nat := 2

def PASSWORD_ERRORS_MAX : Nat := 3
def PW_LEN_MAX : Nat := 127
def SIZE_PW_STATUS_BYTES : Nat := 7
def SIZE_FP : Nat := 20
def SIZE_KGTIME : Nat := 4
def KEY_CONTENT_LEN : Nat := 128
def DATA_ENCRYPTION_KEY_SIZE : Nat := 16
def ADDITIONAL_DATA_SIZE : Nat := 16
def KEY_MAGIC_LEN : Nat := 8
def NUM_ALL_PRV_KEYS : Nat := 3

/-- Byte slice of a memory region: `n` bytes starting at `pos` (reading past
the end of the modelled pool yields erased-flash bytes `0xFF`). -/
def listSlice (mem : List Nat) (pos n : Nat) : List Nat :=
  (List.range n).map (fun k => mem.getD (pos + k) 0xFF)

/-! ## PIN-error counters (C2 of the spec, §4.2)

`flash_cnt123_*` live in the missing `flash.c`.  Modelled from the spec:
a counter cell carries a 16-bit halfword whose cleared (zero) bits count the
errors — `0xFFFF = 0`, `0xFFFE = 1`, `0xFFFC = 2`, `0xF8FF`-style patterns in
general: each increment clears one more bit (the only legal NV transition
without erase), and `clear` releases the cell (no cell ⇒ value 0).
The counter state is `Option Nat`: `none` = no live cell, `some hw` = live
cell with halfword `hw`. -/

/-- Modelled from the spec: `flash_cnt123_get_value` counts the cleared bits
of the halfword; a missing cell reads as 0. -/
def flash_cnt123_get_value : Option Nat → Nat
  | none => 0
  | some hw => (List.range 16).countP (fun i => ! hw.testBit i)

/-- Modelled from the spec: `flash_cnt123_increment` issues one bit-clearing
write (clearing the lowest still-set bit); incrementing with no live cell
first materialises the all-ones cell. -/
def flash_cnt123_increment : Option Nat → Option Nat
  | none => some 0xfffe
  | some hw => some (hw &&& (hw - 1))

/-- Modelled from the spec: `flash_cnt123_clear` releases the cell, returning
the counter to 0. -/
def flash_cnt123_clear : Option Nat → Option Nat
  | _ => none

/-- The three PIN-error counters (`pw_err_counter_p[3]`), indexed by
`PW_ERR_PW1` / `PW_ERR_RC` / `PW_ERR_PW3`. -/
def PwErrState := List (Option Nat)

/-- `gpg_get_pw_err_counter` (openpgp-do.c:83). -/
def gpg_get_pw_err_counter (s : List (Option Nat)) (which : Nat) : Nat :=
  flash_cnt123_get_value (s.getD which none)

/-- `gpg_passwd_locked` (openpgp-do.c:89): 1 when the error counter has
reached `PASSWORD_ERRORS_MAX`, else 0. -/
def gpg_passwd_locked (s : List (Option Nat)) (which : Nat) : Nat :=
  if gpg_get_pw_err_counter s which ≥ PASSWORD_ERRORS_MAX then 1 else 0

/-- `gpg_reset_pw_err_counter` (openpgp-do.c:98). -/
def gpg_reset_pw_err_counter (s : List (Option Nat)) (which : Nat) :
    List (Option Nat) :=
  s.set which (flash_cnt123_clear (s.getD which none))

/-- `gpg_increment_pw_err_counter` (openpgp-do.c:106). -/
def gpg_increment_pw_err_counter (s : List (Option Nat)) (which : Nat) :
    List (Option Nat) :=
  s.set which (flash_cnt123_increment (s.getD which none))

/-- `k` increment calls on counter `which`. -/
def incrPwErrIter (which k : Nat) (s : List (Option Nat)) : List (Option Nat) :=
  match k with
  | 0 => s
  | k + 1 => gpg_increment_pw_err_counter (incrPwErrIter which k s) which

/-- The cleared-counter state: no live counter cells. -/
def pwErrCleared : List (Option Nat) := [none, none, none]

/-! ## Digital signature counter (C2 of the spec, §4.2)

The in-memory counter `digital_signature_counter` is a `Nat` kept below
`2^24`.  `gpg_increment_digital_signature_counter` (openpgp-do.c:58) both
updates the in-memory value and appends encoded cells to the flash pool; the
value update and the sequence of appended halfwords are modelled
separately. -/

/-- Value update performed by `gpg_increment_digital_signature_counter`
(openpgp-do.c:62,77): `dsc = (digital_signature_counter + 1) & 0x00ffffff`. -/
def gpg_increment_dsc_value (c : Nat) : Nat :=
  (c + 1) &&& 0xffffff

/-- `n`-fold iteration of the DSC increment. -/
def incrDscIter (n c0 : Nat) : Nat :=
  match n with
  | 0 => c0
  | n + 1 => gpg_increment_dsc_value (incrDscIter n c0)

/-- The `h14` halfword of the DSC encoding, as its two flash bytes
(little-endian bytes of `hw0 = NR_COUNTER_DS | ((dsc & 0xfc0000) >> 18) |
((dsc & 0x03fc00) >> 2)`, openpgp-do.c:50,66). -/
def dscH14Bytes (dsc : Nat) : List Nat :=
  let hw0 := NR_COUNTER_DS ||| ((dsc &&& 0xfc0000) >>> 18) ||| ((dsc &&& 0x03fc00) >>> 2)
  [hw0 &&& 0xff, hw0 >>> 8]

/-- The `l10` halfword of the DSC encoding, as its two flash bytes
(little-endian bytes of `hw1 = NR_COUNTER_DS_LSB | ((dsc & 0x0300) >> 8) |
((dsc & 0x00ff) << 8)`, openpgp-do.c:44,73). -/
def dscL10Bytes (dsc : Nat) : List Nat :=
  let hw1 := NR_COUNTER_DS_LSB ||| ((dsc &&& 0x0300) >>> 8) ||| ((dsc &&& 0x00ff) <<< 8)
  [hw1 &&& 0xff, hw1 >>> 8]

/-- The ordered sequence of halfword writes (`flash_put_data` calls) issued by
`gpg_increment_digital_signature_counter` (openpgp-do.c:64-75) for the new
value `dsc`: on a low-10-bit rollover the `h14` cell is written first, then
the zero `l10` cell; otherwise only the new `l10` cell is written. -/
def gpg_increment_dsc_writes (dsc : Nat) : List (List Nat) :=
  if dsc &&& 0x03ff = 0 then
    [dscH14Bytes dsc, dscL10Bytes 0]
  else
    [dscL10Bytes dsc]

/-- Body of `do_ds_count` (openpgp-do.c:413): the DS counter as three
big-endian bytes. -/
def dsCountBytes (c : Nat) : List Nat :=
  [(c >>> 16) &&& 0xff, (c >>> 8) &&& 0xff, c &&& 0xff]

/-! ## The boot-time pool scan (`gpg_data_scan`, openpgp-do.c:921)

The pool is a byte list.  The C scan records raw pointers into the pool; we
record, equivalently, the bytes those pointers dereference to — for a DO cell
the recorded list is `len :: payload` starting at the pointer, for a DSC cell
the pair of cell bytes together with the cell position (positions are what
the torn-write rule at openpgp-do.c:1011 compares), for a counter cell the
two encoded halfword bytes.

The C `while (*p != NR_EMPTY)` loop is embedded with a structural fuel
parameter; every iteration consumes at least one pool byte, so fuel
`pool.length + 1` (used by `gpg_data_scan`) can never run out. -/

structure ScanSt where
  doPtr : List (Option (List Nat))
  pw1 : Bool
  cnt : List (Option (List Nat))
  h14 : Option (Nat × Nat × Nat)
  l10 : Option (Nat × Nat × Nat)
deriving DecidableEq

def scanLoop : Nat → List Nat → Nat → ScanSt → ScanSt
  | 0, _, _, st => st
  | _ + 1, [], _, st => st
  | fuel + 1, nr :: rest, pos, st =>
    if nr = NR_EMPTY then st
    else
      let second := rest.headD 0xff
      if nr = 0 ∧ second = 0 then
        -- released word (openpgp-do.c:942)
        scanLoop fuel (rest.drop 1) (pos + 2) st
      else if nr < 0x80 then
        -- Data Object (openpgp-do.c:946): do_ptr points at the length byte,
        -- p += second + 1, then bump to even address
        let stored := rest.take (second + 1)
        let p2 := pos + 2 + second
        let pad := p2 % 2
        scanLoop fuel (rest.drop (second + 1 + pad)) (p2 + pad)
          { st with doPtr := st.doPtr.set (nr - NR_DO__FIRST__) (some stored) }
      else if 0x80 ≤ nr ∧ nr ≤ 0xbf then
        -- DSC upper 14 bits (openpgp-do.c:955)
        scanLoop fuel (rest.drop 1) (pos + 2) { st with h14 := some (pos, nr, second) }
      else if 0xc0 ≤ nr ∧ nr ≤ 0xc3 then
        -- DSC lower 10 bits (openpgp-do.c:961)
        scanLoop fuel (rest.drop 1) (pos + 2) { st with l10 := some (pos, nr, second) }
      else if nr = NR_BOOL_PW1_LIFETIME then
        scanLoop fuel (rest.drop 1) (pos + 2) { st with pw1 := true }
      else if nr = NR_COUNTER_123 then
        let st2 := if second ≤ PW_ERR_PW3 then
                     { st with cnt := st.cnt.set second (some ((rest.drop 1).take 2)) }
                   else st
        scanLoop fuel (rest.drop 3) (pos + 4) st2
      else
        -- discriminator not handled by the switch: only p++ has happened
        scanLoop fuel rest (pos + 1) st

/-- DSC lower-cell decode (openpgp-do.c:1002):
`((*dsc_l10_p - 0xc0) << 8) | *(dsc_l10_p + 1)`. -/
def dscL10Decode (t : Nat × Nat × Nat) : Nat :=
  ((t.2.1 - 0xc0) <<< 8) ||| t.2.2

/-- DSC upper-cell decode (openpgp-do.c:1008):
`((*dsc_h14_p - 0x80) << 8) | *(dsc_h14_p + 1)`. -/
def dscH14Decode (t : Nat × Nat × Nat) : Nat :=
  ((t.2.1 - 0x80) <<< 8) ||| t.2.2

/-- DSC reconstruction after the walk (openpgp-do.c:999-1016), including the
torn-write rule: an `l10` cell physically before the `h14` cell counts as 0. -/
def scanDscValue (st : ScanSt) : Nat :=
  let dscL10 := match st.l10 with
                | none => 0
                | some t => dscL10Decode t
  match st.h14 with
  | none => (0 <<< 10) ||| dscL10
  | some th =>
      let dscH14 := dscH14Decode th
      let l10f := match st.l10 with
                  | none => dscL10
                  | some tl => if tl.1 < th.1 then 0 else dscL10
      (dscH14 <<< 10) ||| l10f

/-- Little-endian halfword of a recorded 2-byte counter cell, fed to
`flash_cnt123_get_value`. -/
def cnt123CellValue : Option (List Nat) → Nat
  | none => flash_cnt123_get_value none
  | some l => flash_cnt123_get_value (some (l.getD 0 0xff + ((l.getD 1 0xff) <<< 8)))

/-- The indexed state `gpg_data_scan` leaves behind: DO pointer table,
PW1-lifetime flag, PIN-error counter cells, reconstructed DSC, private-key
count and `data_objects_number_of_bytes`. -/
structure ScanResult where
  doPtr : List (Option (List Nat))
  pw1 : Bool
  cntCells : List (Option (List Nat))
  dsc : Nat
  numPrvKeys : Int
  dataBytes : Nat
deriving DecidableEq

def scanInit (doPtr0 : List (Option (List Nat))) : ScanSt :=
  { doPtr := doPtr0, pw1 := false, cnt := [none, none, none], h14 := none, l10 := none }

/-- `data_objects_number_of_bytes` (openpgp-do.c:994): sum of the length
bytes of the live DOs. -/
def doBytesTotal (doPtr : List (Option (List Nat))) : Nat :=
  (doPtr.map (fun o => match o with | none => 0 | some l => l.headD 0)).sum

/-- `gpg_data_scan` (openpgp-do.c:921).  `doPtr0` is the incoming `do_ptr[]`
table (all-`none` at boot); the scan clears the DSC pointers, the
PW1-lifetime pointer and the counter pointers but not `do_ptr[]`
(openpgp-do.c:929-933). -/
def gpg_data_scan (pool : List Nat) (doPtr0 : List (Option (List Nat))) : ScanResult :=
  let st := scanLoop (pool.length + 1) pool 0 (scanInit doPtr0)
  { doPtr := st.doPtr
    pw1 := st.pw1
    cntCells := st.cnt
    dsc := scanDscValue st
    numPrvKeys :=
      (if st.doPtr.getD (NR_DO_PRVKEY_SIG - NR_DO__FIRST__) none ≠ none then (1 : Int) else 0) +
      (if st.doPtr.getD (NR_DO_PRVKEY_DEC - NR_DO__FIRST__) none ≠ none then 1 else 0) +
      (if st.doPtr.getD (NR_DO_PRVKEY_AUT - NR_DO__FIRST__) none ≠ none then 1 else 0)
    dataBytes := doBytesTotal st.doPtr }

/-! ## Well-formed pool cells

For reasoning about scans of symbolic pools we describe a pool as a sequence
of cells (spec §3) and encode it to bytes.  All cells occupy an even number
of bytes (a DO cell with odd payload carries one pad byte, spec §9
pool-alignment note), so cells always start at even positions when the pool
does. -/

inductive Cell where
  | released : Cell
  | doC : Nat → List Nat → Cell
  | dsH : Nat → Cell
  | dsL : Nat → Cell
  | pw1B : Cell
  | cnt : Nat → Nat → Cell
deriving DecidableEq

/-- Counter-cell halfword encoding a value `v` (spec §4.2: `v` cleared low
bits). -/
def cntEnc (v : Nat) : Nat := (0xffff <<< v) &&& 0xffff

def encodeCell : Cell → List Nat
  | .released => [0, 0]
  | .doC nr payload =>
      [nr, payload.length] ++ payload ++ (if payload.length % 2 = 1 then [0xff] else [])
  | .dsH v => [0x80 + v / 256, v % 256]
  | .dsL v => [0xc0 + v / 256, v % 256]
  | .pw1B => [NR_BOOL_PW1_LIFETIME, 0]
  | .cnt w v => [NR_COUNTER_123, w, cntEnc v &&& 0xff, cntEnc v >>> 8]

def encodePool (cells : List Cell) : List Nat :=
  (cells.map encodeCell).flatten

def wfCell : Cell → Bool
  | .released => true
  | .doC nr payload =>
      decide (NR_DO__FIRST__ ≤ nr) && decide (nr < NR_DO__LAST__) &&
      decide (payload.length ≤ 255)
  | .dsH v => decide (v < 0x4000)
  | .dsL v => decide (v < 0x400)
  | .pw1B => true
  | .cnt w v => decide (w < 3) && decide (1 ≤ v) && decide (v ≤ 16)

/-- Reference effect of scanning one cell that starts at position `pos`. -/
def stepCell (st : ScanSt) (pos : Nat) : Cell → ScanSt
  | .released => st
  | .doC nr payload =>
      { st with doPtr := st.doPtr.set (nr - NR_DO__FIRST__) (some (payload.length :: payload)) }
  | .dsH v => { st with h14 := some (pos, 0x80 + v / 256, v % 256) }
  | .dsL v => { st with l10 := some (pos, 0xc0 + v / 256, v % 256) }
  | .pw1B => { st with pw1 := true }
  | .cnt w v => { st with cnt := st.cnt.set w (some [cntEnc v &&& 0xff, cntEnc v >>> 8]) }

def foldCells (st : ScanSt) (pos : Nat) : List Cell → ScanSt
  | [] => st
  | c :: cs => foldCells (stepCell st pos c) (pos + (encodeCell c).length) cs

/-! ## Compaction (`gpg_data_copy`, openpgp-do.c:1019) -/

/-- `gpg_write_digital_signature_counter` (openpgp-do.c:37), as the byte
sequence it programs: the 2-byte `l10` form when the upper 14 bits are zero,
else the `h14` cell followed by the constant `hw1 = NR_COUNTER_DS_LSB`
cell — note the source discards the low 10 bits in this branch
(openpgp-do.c:51). -/
def gpg_write_digital_signature_counter (dsc : Nat) : List Nat :=
  if dsc >>> 10 = 0 then
    dscL10Bytes dsc
  else
    dscH14Bytes dsc ++ [NR_COUNTER_DS_LSB &&& 0xff, NR_COUNTER_DS_LSB >>> 8]

/-- Modelled from the spec: `flash_cnt123_write_internal` programs a counter
cell holding the encoding of value `v`. -/
def copyCntCell (i v : Nat) : List Nat :=
  if v ≠ 0 then [NR_COUNTER_123, i, cntEnc v &&& 0xff, cntEnc v >>> 8] else []

/-- One live-DO cell rewritten by compaction (openpgp-do.c:1044-1054):
`flash_do_write_internal (p, i, &do_data[1], len)` with
`p += 2 + ((len + 1) & ~1)`; the odd-length pad byte stays erased. -/
def copyDoCell (nr : Nat) : Option (List Nat) → List Nat
  | none => []
  | some l =>
      let len := l.headD 0xff
      [nr, len] ++ listSlice l 1 len ++ (if len % 2 = 1 then [0xff] else [])

/-- `gpg_data_copy` (openpgp-do.c:1019): the canonical byte image of the live
state — encoded DSC, PW1-lifetime marker if set, non-zero PIN-error
counters, then every live DO cell — followed by the erased tail byte the
next scan stops at. -/
def gpg_data_copy (pre : ScanResult) : List Nat :=
  gpg_write_digital_signature_counter pre.dsc
  ++ (if pre.pw1 then [NR_BOOL_PW1_LIFETIME, 0] else [])
  ++ copyCntCell 0 (cnt123CellValue (pre.cntCells.getD 0 none))
  ++ copyCntCell 1 (cnt123CellValue (pre.cntCells.getD 1 none))
  ++ copyCntCell 2 (cnt123CellValue (pre.cntCells.getD 2 none))
  ++ ((List.range (NR_DO__LAST__ - NR_DO__FIRST__)).map
        (fun i => copyDoCell (i + NR_DO__FIRST__) (pre.doPtr.getD i none))).flatten
  ++ [NR_EMPTY]

/-! ## DO catalog, access control and the GET/PUT façade (spec §4.5, §4.7)

`CardState` collects the global state the façade touches: the flash data
pool, the `do_ptr[]` table (positions of the length byte of each live DO
cell inside the pool), the in-memory `digital_signature_counter`,
`pw1_lifetime_p` (as a flag), the three PIN-error counter cells, and
`num_prv_keys`.  The authentication state lives in the collaborator `ac`
subsystem; modelled from the spec, the core only consults
`ac_check_status(level)` with `ALWAYS`/`NEVER`/`ADMIN_AUTHORIZED`, the last
answering whether PW3 is verified. -/

structure CardState where
  pool : List Nat
  doPtrs : List (Option Nat)
  dsc : Nat
  pw1Lifetime : Bool
  pwErr : List (Option Nat)
  numPrvKeys : Int
  adminVerified : Bool
deriving DecidableEq

inductive AC where
  | always : AC
  | never : AC
  | adminAuthorized : AC
deriving DecidableEq

/-- Modelled from the spec (§4.5): the access-control predicate the core
consults. -/
def ac_check_status (adminVerified : Bool) : AC → Bool
  | .always => true
  | .never => false
  | .adminAuthorized => adminVerified

inductive DoKind where
  | fixedK : DoKind
  | varK : DoKind
  | cmpK : DoKind
  | procReadK : DoKind
  | procWriteK : DoKind
  | procRWK : DoKind
deriving DecidableEq

/-- The `obj` member of a table entry, split by what it points at: a literal
blob, a `do_ptr` slot, a child-tag list, or one of the handler functions of
`openpgp-do.c`. -/
inductive DoObj where
  | objFixed : List Nat → DoObj
  | objVar : Nat → DoObj
  | objCmp : List Nat → DoObj
  | objHistBytes : DoObj
  | objFpAll : DoObj
  | objCafpAll : DoObj
  | objKgtimeAll : DoObj
  | objDsCount : DoObj
  | objPwStatus : DoObj
  | objResettingCode : DoObj
  | objKeyImport : DoObj
  | objNull : DoObj
deriving DecidableEq

structure DoEntry where
  tag : Nat
  kind : DoKind
  acRead : AC
  acWrite : AC
  obj : DoObj
deriving DecidableEq

def GPG_DO_AID : Nat := 0x004f
def GPG_DO_NAME : Nat := 0x005b
def GPG_DO_LOGIN_DATA : Nat := 0x005e
def GPG_DO_CH_DATA : Nat := 0x0065
def GPG_DO_APP_DATA : Nat := 0x006e
def GPG_DO_SS_TEMP : Nat := 0x007a
def GPG_DO_DS_COUNT : Nat := 0x0093
def GPG_DO_EXTCAP : Nat := 0x00c0
def GPG_DO_ALG_SIG : Nat := 0x00c1
def GPG_DO_ALG_DEC : Nat := 0x00c2
def GPG_DO_ALG_AUT : Nat := 0x00c3
def GPG_DO_PW_STATUS : Nat := 0x00c4
def GPG_DO_FP_ALL : Nat := 0x00c5
def GPG_DO_CAFP_ALL : Nat := 0x00c6
def GPG_DO_FP_SIG : Nat := 0x00c7
def GPG_DO_FP_DEC : Nat := 0x00c8
def GPG_DO_FP_AUT : Nat := 0x00c9
def GPG_DO_CAFP_1 : Nat := 0x00ca
def GPG_DO_CAFP_2 : Nat := 0x00cb
def GPG_DO_CAFP_3 : Nat := 0x00cc
def GPG_DO_KGTIME_ALL : Nat := 0x00cd
def GPG_DO_KGTIME_SIG : Nat := 0x00ce
def GPG_DO_KGTIME_DEC : Nat := 0x00cf
def GPG_DO_KGTIME_AUT : Nat := 0x00d0
def GPG_DO_RESETTING_CODE : Nat := 0x00d3
def GPG_DO_KEY_IMPORT : Nat := 0x3fff
def GPG_DO_LANGUAGE : Nat := 0x5f2d
def GPG_DO_SEX : Nat := 0x5f35
def GPG_DO_URL : Nat := 0x5f50
def GPG_DO_HIST_BYTES : Nat := 0x5f52
def GPG_DO_CH_CERTIFICATE : Nat := 0x7f21

/-- `do_tag_to_nr` (openpgp-do.c:249).  The `fatal()` default is never
reached from `gpg_do_put_data` (only `DO_VAR` tags get here); 0 stands in
for it. -/
def do_tag_to_nr (tag : Nat) : Nat :=
  if tag = GPG_DO_SEX then NR_DO_SEX
  else if tag = GPG_DO_FP_SIG then NR_DO_FP_SIG
  else if tag = GPG_DO_FP_DEC then NR_DO_FP_DEC
  else if tag = GPG_DO_FP_AUT then NR_DO_FP_AUT
  else if tag = GPG_DO_CAFP_1 then NR_DO_CAFP_1
  else if tag = GPG_DO_CAFP_2 then NR_DO_CAFP_2
  else if tag = GPG_DO_CAFP_3 then NR_DO_CAFP_3
  else if tag = GPG_DO_KGTIME_SIG then NR_DO_KGTIME_SIG
  else if tag = GPG_DO_KGTIME_DEC then NR_DO_KGTIME_DEC
  else if tag = GPG_DO_KGTIME_AUT then NR_DO_KGTIME_AUT
  else if tag = GPG_DO_LOGIN_DATA then NR_DO_LOGIN_DATA
  else if tag = GPG_DO_URL then NR_DO_URL
  else if tag = GPG_DO_NAME then NR_DO_NAME
  else if tag = GPG_DO_LANGUAGE then NR_DO_LANGUAGE
  else 0

/-! Compile-time blobs (openpgp-do.c:122-168).  `MANUFACTURER_IN_AID`,
`SERIAL_NUMBER_IN_AID` and the APDU size limits come from the missing
`config.h`; modelled from the spec (§6) with representative values — no
claim depends on them. -/

def openpgpcard_aid : List Nat :=
  [16, 0xd2, 0x76, 0x00, 0x01, 0x24, 0x01, 0x02, 0x00,
   0xff, 0xff, 0x00, 0x00, 0x00, 0x01, 0x00, 0x00]

def historical_bytes : List Nat :=
  [10, 0x00, 0x31, 0x80, 0x73, 0x80, 0x01, 0x40, 0x00, 0x90, 0x00]

def extended_capabilities : List Nat :=
  [10, 0x30, 0x00, 0x00, 0x00, 0x00, 0x00, 0x01, 0x00, 0x01, 0x00]

def algorithm_attr : List Nat :=
  [6, 0x01, 0x08, 0x00, 0x00, 0x20, 0x00]

def cmp_ch_data : List Nat := [GPG_DO_NAME, GPG_DO_LANGUAGE, GPG_DO_SEX]

def cmp_app_data : List Nat :=
  [GPG_DO_AID, GPG_DO_HIST_BYTES, GPG_DO_EXTCAP,
   GPG_DO_ALG_SIG, GPG_DO_ALG_DEC, GPG_DO_ALG_AUT,
   GPG_DO_PW_STATUS, GPG_DO_FP_ALL, GPG_DO_CAFP_ALL, GPG_DO_KGTIME_ALL]

def cmp_ss_temp : List Nat := [GPG_DO_DS_COUNT]

/-- `gpg_do_table` (openpgp-do.c:868), in source order. -/
def gpg_do_table : List DoEntry :=
  [ ⟨GPG_DO_SEX, .varK, .always, .adminAuthorized, .objVar 0⟩,
    ⟨GPG_DO_FP_SIG, .varK, .always, .adminAuthorized, .objVar 1⟩,
    ⟨GPG_DO_FP_DEC, .varK, .always, .adminAuthorized, .objVar 2⟩,
    ⟨GPG_DO_FP_AUT, .varK, .always, .adminAuthorized, .objVar 3⟩,
    ⟨GPG_DO_CAFP_1, .varK, .always, .adminAuthorized, .objVar 4⟩,
    ⟨GPG_DO_CAFP_2, .varK, .always, .adminAuthorized, .objVar 5⟩,
    ⟨GPG_DO_CAFP_3, .varK, .always, .adminAuthorized, .objVar 6⟩,
    ⟨GPG_DO_KGTIME_SIG, .varK, .always, .adminAuthorized, .objVar 7⟩,
    ⟨GPG_DO_KGTIME_DEC, .varK, .always, .adminAuthorized, .objVar 8⟩,
    ⟨GPG_DO_KGTIME_AUT, .varK, .always, .adminAuthorized, .objVar 9⟩,
    ⟨GPG_DO_LOGIN_DATA, .varK, .always, .adminAuthorized, .objVar 10⟩,
    ⟨GPG_DO_URL, .varK, .always, .adminAuthorized, .objVar 11⟩,
    ⟨GPG_DO_NAME, .varK, .always, .adminAuthorized, .objVar 12⟩,
    ⟨GPG_DO_LANGUAGE, .varK, .always, .adminAuthorized, .objVar 13⟩,
    ⟨GPG_DO_HIST_BYTES, .procReadK, .always, .never, .objHistBytes⟩,
    ⟨GPG_DO_FP_ALL, .procReadK, .always, .never, .objFpAll⟩,
    ⟨GPG_DO_CAFP_ALL, .procReadK, .always, .never, .objCafpAll⟩,
    ⟨GPG_DO_KGTIME_ALL, .procReadK, .always, .never, .objKgtimeAll⟩,
    ⟨GPG_DO_DS_COUNT, .procReadK, .always, .never, .objDsCount⟩,
    ⟨GPG_DO_PW_STATUS, .procRWK, .always, .adminAuthorized, .objPwStatus⟩,
    ⟨GPG_DO_AID, .fixedK, .always, .never, .objFixed openpgpcard_aid⟩,
    ⟨GPG_DO_EXTCAP, .fixedK, .always, .never, .objFixed extended_capabilities⟩,
    ⟨GPG_DO_ALG_SIG, .fixedK, .always, .never, .objFixed algorithm_attr⟩,
    ⟨GPG_DO_ALG_DEC, .fixedK, .always, .never, .objFixed algorithm_attr⟩,
    ⟨GPG_DO_ALG_AUT, .fixedK, .always, .never, .objFixed algorithm_attr⟩,
    ⟨GPG_DO_CH_DATA, .cmpK, .always, .never, .objCmp cmp_ch_data⟩,
    ⟨GPG_DO_APP_DATA, .cmpK, .always, .never, .objCmp cmp_app_data⟩,
    ⟨GPG_DO_SS_TEMP, .cmpK, .always, .never, .objCmp cmp_ss_temp⟩,
    ⟨GPG_DO_RESETTING_CODE, .procWriteK, .never, .adminAuthorized, .objResettingCode⟩,
    ⟨GPG_DO_KEY_IMPORT, .procWriteK, .never, .adminAuthorized, .objKeyImport⟩,
    ⟨GPG_DO_CH_CERTIFICATE, .procRWK, .never, .never, .objNull⟩ ]

/-- `get_do_entry` (openpgp-do.c:1059). -/
def get_do_entry (tag : Nat) : Option DoEntry :=
  gpg_do_table.find? (fun e => e.tag = tag)

/-- `copy_tag` (openpgp-do.c:287). -/
def copy_tag (tag : Nat) : List Nat :=
  if tag < 0x0100 then [tag &&& 0xff] else [tag >>> 8, tag &&& 0xff]

/-- `copy_do_1` (openpgp-do.c:1071): `mem`/`pos` model the `do_data`
pointer; byte 0 is the length.  With a tag header the length byte is part of
the copied region (`len = do_data[0] + 1`), preceded by `0x81` when the
payload length has the top bit set. -/
def copy_do_1 (tag : Nat) (mem : List Nat) (pos : Nat) (withTag : Bool) : List Nat :=
  let lenByte := mem.getD pos 0xff
  if withTag then
    copy_tag tag ++ (if lenByte ≥ 128 then [0x81] else []) ++ listSlice mem pos (lenByte + 1)
  else
    listSlice mem (pos + 1) lenByte

/-- `gpg_do_read_simple` (openpgp-do.c:1329): position of the payload of DO
`nr`, or `none`. -/
def gpg_do_read_simple (st : CardState) (nr : Nat) : Option Nat :=
  match st.doPtrs.getD (nr - NR_DO__FIRST__) none with
  | none => none
  | some pos => some (pos + 1)

/-- The `memcpy (res_p, data, size)` / `memset (res_p, 0, size)` alternative
used by the all-fingerprint / keygen-time readers (openpgp-do.c:322-341). -/
def readBlockOrZero (st : CardState) (nr size : Nat) : List Nat :=
  match gpg_do_read_simple st nr with
  | none => List.replicate size 0
  | some ppos => listSlice st.pool ppos size

/-- `do_fp_all` (openpgp-do.c:311). -/
def do_fp_all (st : CardState) (tag : Nat) (withTag : Bool) : List Nat :=
  (if withTag then copy_tag tag ++ [SIZE_FP * 3] else [])
  ++ readBlockOrZero st NR_DO_FP_SIG SIZE_FP
  ++ readBlockOrZero st NR_DO_FP_DEC SIZE_FP
  ++ readBlockOrZero st NR_DO_FP_AUT SIZE_FP

/-- `do_cafp_all` (openpgp-do.c:345).  The source reads `NR_DO_CAFP_2` for
both the second and the third block and never reads `NR_DO_CAFP_3`
(openpgp-do.c:363,370). -/
def do_cafp_all (st : CardState) (tag : Nat) (withTag : Bool) : List Nat :=
  (if withTag then copy_tag tag ++ [SIZE_FP * 3] else [])
  ++ readBlockOrZero st NR_DO_CAFP_1 SIZE_FP
  ++ readBlockOrZero st NR_DO_CAFP_2 SIZE_FP
  ++ readBlockOrZero st NR_DO_CAFP_2 SIZE_FP

/-- `do_kgtime_all` (openpgp-do.c:379). -/
def do_kgtime_all (st : CardState) (tag : Nat) (withTag : Bool) : List Nat :=
  (if withTag then copy_tag tag ++ [SIZE_KGTIME * 3] else [])
  ++ readBlockOrZero st NR_DO_KGTIME_SIG SIZE_KGTIME
  ++ readBlockOrZero st NR_DO_KGTIME_DEC SIZE_KGTIME
  ++ readBlockOrZero st NR_DO_KGTIME_AUT SIZE_KGTIME

/-- `do_ds_count` (openpgp-do.c:413). -/
def do_ds_count (st : CardState) (tag : Nat) (withTag : Bool) : List Nat :=
  (if withTag then copy_tag tag ++ [3] else []) ++ dsCountBytes st.dsc

/-- Read mode of `rw_pw_status` (openpgp-do.c:454-469). -/
def rw_pw_status_read (st : CardState) (tag : Nat) (withTag : Bool) : List Nat :=
  (if withTag then copy_tag tag ++ [SIZE_PW_STATUS_BYTES] else [])
  ++ [ (if st.pw1Lifetime then 1 else 0),
       PW_LEN_MAX, PW_LEN_MAX, PW_LEN_MAX,
       PASSWORD_ERRORS_MAX - gpg_get_pw_err_counter st.pwErr PW_ERR_PW1,
       PASSWORD_ERRORS_MAX - gpg_get_pw_err_counter st.pwErr PW_ERR_RC,
       PASSWORD_ERRORS_MAX - gpg_get_pw_err_counter st.pwErr PW_ERR_PW3 ]

/-- `copy_do` (openpgp-do.c:1095), with one fuel unit per compound-recursion
level (`gpg_do_get_data` passes 2; the table nests compounds at most one
level deep, so the fuel never runs out on reachable inputs).  Returns the
status (`-1` denied, `0` empty, `1` copied) and the bytes appended to the
response buffer. -/
def copy_do (st : CardState) : Nat → Option DoEntry → Bool → Int × List Nat
  | _, none, _ => (0, [])
  | fuel, some e, withTag =>
    if ac_check_status st.adminVerified e.acRead then
      match e.kind, e.obj with
      | .fixedK, .objFixed bytes => (1, copy_do_1 e.tag bytes 0 withTag)
      | .varK, .objVar slot =>
          match st.doPtrs.getD slot none with
          | none => (0, [])
          | some pos => (1, copy_do_1 e.tag st.pool pos withTag)
      | .cmpK, .objCmp tags =>
          match fuel with
          | 0 => (-1, [])
          | f + 1 =>
              let children := tags.foldl
                (fun acc t =>
                  match acc with
                  | none => none
                  | some bytes =>
                      let r := copy_do st f (get_do_entry t) true
                      if r.1 < 0 then none else some (bytes ++ r.2))
                (some [])
              match children with
              | none => (-1, [])
              | some bytes =>
                  -- back-patch `*len_p = res_p - len_p` (openpgp-do.c:1147)
                  (1, copy_tag e.tag ++ [0x81, bytes.length + 1] ++ bytes)
      | .procReadK, .objHistBytes => (1, copy_do_1 e.tag historical_bytes 0 withTag)
      | .procReadK, .objFpAll => (1, do_fp_all st e.tag withTag)
      | .procReadK, .objCafpAll => (1, do_cafp_all st e.tag withTag)
      | .procReadK, .objKgtimeAll => (1, do_kgtime_all st e.tag withTag)
      | .procReadK, .objDsCount => (1, do_ds_count st e.tag withTag)
      | .procRWK, .objPwStatus => (1, rw_pw_status_read st e.tag withTag)
      | .procWriteK, _ => (-1, [])
      | _, _ => (-1, [])
    else (-1, [])

inductive GetResult where
  | ok : List Nat → GetResult
  | securityFailure : GetResult
  | noRecord : GetResult
deriving DecidableEq

/-- `gpg_do_get_data` (openpgp-do.c:1174): response bytes including the
`90 00` status word on success, or the mapped failure status. -/
def gpg_do_get_data (st : CardState) (tag : Nat) : GetResult :=
  match get_do_entry tag with
  | none => .noRecord
  | some e =>
      let r := copy_do st 2 (some e) false
      if r.1 < 0 then .securityFailure
      else .ok (r.2 ++ [0x90, 0x00])

/-! ## PUT DATA (`gpg_do_put_data`, openpgp-do.c:1200) -/

inductive PutResult where
  | success : PutResult
  | securityFailure : PutResult
  | memoryFailure : PutResult
  | errorSW : PutResult
  | noRecord : PutResult
  | silent : PutResult
  | unmodeled : PutResult
deriving DecidableEq

/-- `flash_do_release` (missing `flash.c`).  Modelled from the spec (§3,
§4.1): releasing overwrites the two-byte cell header with `0x0000`; `pos` is
the recorded pointer, which addresses the second header byte (the length). -/
def flash_do_release (pool : List Nat) (pos : Nat) : List Nat :=
  (pool.set (pos - 1) 0).set pos 0

/-- `flash_do_write` (missing `flash.c`).  Modelled from the spec (§3, §4.1):
append a DO cell `(nr, len, payload, pad-to-even)` at the tail and return the
pointer to its length byte.  Pool exhaustion (the `NULL` return) is outside
the spec fragment under study; the modelled pool is unbounded. -/
def flash_do_write (pool : List Nat) (nr : Nat) (data : List Nat) :
    List Nat × Nat :=
  let cell := [nr, data.length] ++ data ++
              (if data.length % 2 = 1 then [0xff] else [])
  (pool ++ cell, pool.length + 1)

/-- `gpg_do_write_simple` (openpgp-do.c:1341). -/
def gpg_do_write_simple (st : CardState) (nr : Nat) (data : Option (List Nat)) :
    CardState :=
  let st1 := match st.doPtrs.getD (nr - NR_DO__FIRST__) none with
             | some pos => { st with pool := flash_do_release st.pool pos }
             | none => st
  match data with
  | some d =>
      let w := flash_do_write st1.pool nr d
      { st1 with pool := w.1,
                 doPtrs := st1.doPtrs.set (nr - NR_DO__FIRST__) (some w.2) }
  | none =>
      { st1 with doPtrs := st1.doPtrs.set (nr - NR_DO__FIRST__) none }

/-- `get_do_ptr_nr_for_kk` (openpgp-do.c:549), with the role selected by the
Extended-Header-List byte as in `proc_key_import` (openpgp-do.c:807). -/
def kk_nr_of_byte (b : Nat) : Nat :=
  if b = 0xb6 then NR_DO_PRVKEY_SIG
  else if b = 0xb8 then NR_DO_PRVKEY_DEC
  else NR_DO_PRVKEY_AUT

/-- The deletion branch of `proc_key_import` (openpgp-do.c:814-837,
`len <= 22`): release the key slot and DO cell if the role has one, null the
pointer, decrement `num_prv_keys` unconditionally, and erase the PW1 and RC
keystrings when the count reaches zero.  (The key-slot arena is not part of
`CardState`; its release has no observable effect here.) -/
def proc_key_import_delete (st : CardState) (data : List Nat) : CardState × PutResult :=
  let nr := kk_nr_of_byte (data.getD 4 0xff)
  let st1 := match st.doPtrs.getD (nr - NR_DO__FIRST__) none with
             | some pos => { st with pool := flash_do_release st.pool pos }
             | none => st
  let st2 := { st1 with doPtrs := st1.doPtrs.set (nr - NR_DO__FIRST__) none,
                        numPrvKeys := st1.numPrvKeys - 1 }
  if st2.numPrvKeys = 0 then
    let st3 := gpg_do_write_simple st2 NR_DO_KEYSTRING_PW1 none
    let st4 := gpg_do_write_simple st3 NR_DO_KEYSTRING_RC none
    (st4, .success)
  else
    (st2, .success)

/-- `proc_key_import` (openpgp-do.c:799).  The import branch (`len > 22`)
calls `gpg_do_write_prvkey`, which is developed separately as the key
envelope (it is parametric in the AES block function and RNG outputs and so
does not fit `CardState`); the façade marks it `unmodeled`. -/
def proc_key_import (st : CardState) (data : List Nat) (len : Nat) :
    CardState × PutResult :=
  if len ≤ 22 then proc_key_import_delete st data
  else (st, .unmodeled)

/-- `gpg_do_put_data` (openpgp-do.c:1200). -/
def gpg_do_put_data (st : CardState) (tag : Nat) (data : List Nat) (len : Nat) :
    CardState × PutResult :=
  match get_do_entry tag with
  | none => (st, .noRecord)
  | some e =>
    if ac_check_status st.adminVerified e.acWrite then
      match e.kind, e.obj with
      | .fixedK, _ => (st, .securityFailure)
      | .cmpK, _ => (st, .securityFailure)
      | .procReadK, _ => (st, .securityFailure)
      | .varK, .objVar slot =>
          -- release first (openpgp-do.c:1227), validate length after
          let st1 := match st.doPtrs.getD slot none with
                     | some pos => { st with pool := flash_do_release st.pool pos }
                     | none => st
          if len = 0 then
            ({ st1 with doPtrs := st1.doPtrs.set slot none }, .silent)
          else if len > 255 then
            (st1, .memoryFailure)
          else
            let w := flash_do_write st1.pool (do_tag_to_nr tag) data
            ({ st1 with pool := w.1, doPtrs := st1.doPtrs.set slot (some w.2) },
             .success)
      | .procRWK, .objPwStatus =>
          -- write mode of rw_pw_status (openpgp-do.c:432-452)
          if data.getD 0 0 = 0 then
            ({ st with pw1Lifetime := false }, .success)
          else
            ({ st with pw1Lifetime := true }, .success)
      | .procRWK, .objNull => (st, .unmodeled)  -- unreachable: write AC is NEVER
      | .procWriteK, .objResettingCode => (st, .unmodeled)
          -- proc_resetting_code depends on gpg_change_keystring (openpgp.c,
          -- not in the repository)
      | .procWriteK, .objKeyImport => proc_key_import st data len
      | _, _ => (st, .errorSW)
    else (st, .securityFailure)

/-! ## Key envelope (spec §4.4; openpgp-do.c:515-750)

`encrypt`/`decrypt` (openpgp-do.c:515,533) run AES-128-CFB128 with an
all-zero IV.  AES itself is collaborator code (polarssl, out of scope); CFB
mode only ever applies the block cipher in its forward direction, so the
embedding is parametric in an arbitrary keyed block function
`F : key → shift-register → 16-byte keystream block`.  Every envelope
theorem quantifies over `F`, hence holds for AES in particular.  The loops
carry structural fuel (one unit per 16-byte block; one byte of input per
block keeps `length + 1` always sufficient). -/

def zipXor (a b : List Nat) : List Nat := List.zipWith Nat.xor a b

def cfbEncLoop (F : List Nat → List Nat → List Nat) (key : List Nat) :
    Nat → List Nat → List Nat → List Nat
  | 0, _, _ => []
  | fuel + 1, sr, pt =>
    match pt with
    | [] => []
    | p :: ps =>
        let blk := (p :: ps).take 16
        let c := zipXor blk (F key sr)
        c ++ cfbEncLoop F key fuel c ((p :: ps).drop 16)

def cfbDecLoop (F : List Nat → List Nat → List Nat) (key : List Nat) :
    Nat → List Nat → List Nat → List Nat
  | 0, _, _ => []
  | fuel + 1, sr, ct =>
    match ct with
    | [] => []
    | c :: cs =>
        let blk := (c :: cs).take 16
        let p := zipXor blk (F key sr)
        p ++ cfbDecLoop F key fuel blk ((c :: cs).drop 16)

/-- `encrypt` (openpgp-do.c:515): AES-128-CFB128, zero IV, in forward
direction. -/
def encryptCFB (F : List Nat → List Nat → List Nat) (key data : List Nat) : List Nat :=
  cfbEncLoop F key (data.length + 1) (List.replicate 16 0) data

/-- `decrypt` (openpgp-do.c:533): CFB decryption, zero IV, same forward
block function. -/
def decryptCFB (F : List Nat → List Nat → List Nat) (key data : List Nat) : List Nat :=
  cfbDecLoop F key (data.length + 1) (List.replicate 16 0) data

/-- `struct prvkey_data` (spec §3): stored pointer, encrypted
check/random/magic trailer, and the three DEK copies. -/
structure PrvkeyData where
  keyAddrBytes : List Nat
  crm_encrypted : List Nat
  dek_encrypted_1 : List Nat
  dek_encrypted_2 : List Nat
  dek_encrypted_3 : List Nat
deriving DecidableEq

/-- The record as it sits behind `do_data + 1` in flash. -/
def prvkeyBytes (pd : PrvkeyData) : List Nat :=
  pd.keyAddrBytes ++ pd.crm_encrypted ++ pd.dek_encrypted_1 ++
  pd.dek_encrypted_2 ++ pd.dek_encrypted_3

/-- The DEK copy `gpg_do_load_prvkey` selects:
`memcpy (dek, do_data+5+16*who, 16)` (openpgp-do.c:583), i.e. offset
`4 + 16*who` from the record start — `who = 1` is the PW1 copy, `2` the RC
copy, `3` the PW3 copy, and `who = 0` lands on `crm_encrypted`. -/
def dekAt (pd : PrvkeyData) (who : Nat) : List Nat :=
  listSlice (prvkeyBytes pd) (4 + 16 * who) DATA_ENCRYPTION_KEY_SIZE

/-- The state one key role's envelope operations touch: the DO record, the
key-arena slot contents, the two keystring DOs and `num_prv_keys`.  (Each of
the three roles has its own record and slot; the envelope code is identical
across roles.) -/
structure PrvKeyEnv where
  record : Option PrvkeyData
  slotEnc : List Nat
  slotModulus : List Nat
  ksPw1DO : Option (List Nat)
  ksRcDO : Option (List Nat)
  numPrvKeys : Int
deriving DecidableEq

/-- `calc_check32` (openpgp-do.c:596): sum of the little-endian 32-bit words. -/
def word32At (p : List Nat) (i : Nat) : Nat :=
  p.getD (4 * i) 0xff + (p.getD (4 * i + 1) 0xff) * 0x100 +
  (p.getD (4 * i + 2) 0xff) * 0x10000 + (p.getD (4 * i + 3) 0xff) * 0x1000000

def calc_check32 (p : List Nat) (len : Nat) : Nat :=
  (((List.range (len / 4)).map (word32At p)).sum) % 2 ^ 32

/-- Little-endian 4-byte image of a 32-bit value. -/
def le4 (x : Nat) : List Nat :=
  [x % 0x100, x / 0x100 % 0x100, x / 0x10000 % 0x100, x / 0x1000000 % 0x100]

/-- Modelled from the spec: the fixed 8-byte `GNUK_MAGIC` constant of
`struct key_data` (its value lives in the missing `gnuk.h`; only its
fixedness matters). -/
def GNUK_MAGIC : List Nat := [0x47, 0x6e, 0x75, 0x6b, 0x20, 0x4b, 0x45, 0x59]

/-- Modelled from the spec: the hard-coded factory-default user PIN
`OPENPGP_CARD_INITIAL_PW1` (missing `config.h`); its SHA-1 keystring is
produced through the collaborator hash `S`. -/
def OPENPGP_CARD_INITIAL_PW1 : List Nat := [0x31, 0x32, 0x33, 0x34, 0x35, 0x36]

/-- `gpg_do_write_prvkey` (openpgp-do.c:611) — the seal operation.

Parameters standing for collaborator calls: `F` the AES block function, `S`
SHA-1 (`sha1(msg) → 20 bytes`), `mc` `modulus_calc`, `dekFresh` the
16 random bytes of `random_bytes_get`, `rnd` the `get_random ()` word,
`pw3ks` the global `keystring_md_pw3`.  `flash_key_alloc` and
`flash_key_write` are modelled as succeeding (arena exhaustion is out of
scope); the heap bookkeeping of `pd` has no observable effect. -/
def gpg_do_write_prvkey (F : List Nat → List Nat → List Nat)
    (S : List Nat → List Nat) (mc : List Nat → Option (List Nat))
    (env : PrvKeyEnv) (key_data : List Nat) (keystring pw3ks dekFresh : List Nat)
    (rnd : Nat) : Int × PrvKeyEnv :=
  match mc key_data with
  | none => (-1, env)
  | some modulus =>
    let check := calc_check32 key_data KEY_CONTENT_LEN
    let kd0 := listSlice key_data 0 KEY_CONTENT_LEN ++ le4 check ++ le4 rnd ++ GNUK_MAGIC
    -- old-record path (openpgp-do.c:661): recover the DEK through the PW3
    -- copy, park it in copy 1, zero copy 2, erase both keystring DOs,
    -- release the old slot and cell; fresh path (openpgp-do.c:677): a fresh
    -- random DEK in all three copies
    let dek := match env.record with
               | some old => decryptCFB F pw3ks old.dek_encrypted_3
               | none => dekFresh
    let ksPw1 := match env.record with
                 | some _ => none
                 | none => env.ksPw1DO
    let ksRc := match env.record with
                | some _ => none
                | none => env.ksRcDO
    let encKd := encryptCFB F dek kd0
    let dek1 := match ksPw1 with
                | some ks => encryptCFB F (ks.drop 1) dek
                | none => encryptCFB F (S OPENPGP_CARD_INITIAL_PW1) dek
    let dek2 := match ksRc with
                | some ks => encryptCFB F (ks.drop 1) dek
                | none => List.replicate DATA_ENCRYPTION_KEY_SIZE 0
    let dek3 := encryptCFB F keystring dek
    let pd : PrvkeyData :=
      { keyAddrBytes := [0, 0, 0, 0]
        crm_encrypted := listSlice encKd KEY_CONTENT_LEN ADDITIONAL_DATA_SIZE
        dek_encrypted_1 := dek1
        dek_encrypted_2 := dek2
        dek_encrypted_3 := dek3 }
    let wasFresh := env.record = none
    let num := if wasFresh then env.numPrvKeys + 1 else env.numPrvKeys
    -- keystring truncation when all three roles hold keys (openpgp-do.c:732)
    let truncate := wasFresh ∧ num = (NUM_ALL_PRV_KEYS : Int)
    let ksPw1DO := if env.record.isSome then none
                   else if truncate then
                     match ksPw1 with
                     | some ks => some [ks.headD 0xff]
                     | none => env.ksPw1DO
                   else env.ksPw1DO
    let ksRcDO := if env.record.isSome then none
                  else if truncate then
                    match ksRc with
                    | some ks => some [ks.headD 0xff]
                    | none => env.ksRcDO
                  else env.ksRcDO
    (0, { record := some pd
          slotEnc := listSlice encKd 0 KEY_CONTENT_LEN
          slotModulus := modulus
          ksPw1DO := ksPw1DO
          ksRcDO := ksRcDO
          numPrvKeys := num })

/-- `gpg_do_load_prvkey` (openpgp-do.c:569) — the unseal operation.  Returns
the status (`1` success, `0` no key, `-1` magic mismatch) and the decrypted
`kd` bytes (`data ++ check ++ random ++ magic`). -/
def gpg_do_load_prvkey (F : List Nat → List Nat → List Nat)
    (env : PrvKeyEnv) (who : Nat) (keystring : List Nat) : Int × List Nat :=
  match env.record with
  | none => (0, [])
  | some pd =>
      let kdEnc := listSlice env.slotEnc 0 KEY_CONTENT_LEN ++ pd.crm_encrypted
      let dek := decryptCFB F keystring (dekAt pd who)
      let kdBytes := decryptCFB F dek kdEnc
      if listSlice kdBytes (KEY_CONTENT_LEN + 8) KEY_MAGIC_LEN = GNUK_MAGIC then
        (1, kdBytes)
      else
        (-1, kdBytes)

/-! Concrete collaborator instantiations used by witnesses: a keyed-xor block
function (any block function satisfies the CFB laws; this one also depends on
its key, so wrong-keystring decryptions visibly fail), a constant
stand-in hash, and a constant modulus producer. -/

def xorBlockF (key sr : List Nat) : List Nat :=
  (List.range 16).map (fun i => Nat.xor (key.getD i 0) (sr.getD i 0))

def constHash (_ : List Nat) : List Nat := List.replicate 20 0x99

def constModulus (_ : List Nat) : Option (List Nat) := some (List.replicate 256 0x77)

/-- An all-blank card state used by witnesses. -/
def blankCard : CardState :=
  { pool := [], doPtrs := List.replicate 19 none, dsc := 0, pw1Lifetime := false,
    pwErr := [none, none, none], numPrvKeys := 0, adminVerified := true }

/-- The 14 `DO_VAR` tags of `gpg_do_table`. -/
def varTags : List Nat :=
  [GPG_DO_SEX, GPG_DO_FP_SIG, GPG_DO_FP_DEC, GPG_DO_FP_AUT,
   GPG_DO_CAFP_1, GPG_DO_CAFP_2, GPG_DO_CAFP_3,
   GPG_DO_KGTIME_SIG, GPG_DO_KGTIME_DEC, GPG_DO_KGTIME_AUT,
   GPG_DO_LOGIN_DATA, GPG_DO_URL, GPG_DO_NAME, GPG_DO_LANGUAGE]

/-- The spec's 18-byte login-data example, `"alice@example.test"`. -/
def aliceLogin : List Nat :=
  [0x61, 0x6c, 0x69, 0x63, 0x65, 0x40, 0x65, 0x78, 0x61, 0x6d,
   0x70, 0x6c, 0x65, 0x2e, 0x74, 0x65, 0x73, 0x74]

/-- A card state holding three distinct 20-byte CA fingerprints (the result
of three admin PUT DATA calls on CAFP_1/2/3 from a blank card). -/
def cafpCard : CardState :=
  { pool := [NR_DO_CAFP_1, 20] ++ List.replicate 20 0x11
            ++ [NR_DO_CAFP_2, 20] ++ List.replicate 20 0x22
            ++ [NR_DO_CAFP_3, 20] ++ List.replicate 20 0x33
    doPtrs := (((List.replicate 19 none).set 4 (some 1)).set 5 (some 23)).set 6 (some 45)
    dsc := 0, pw1Lifetime := false, pwErr := [none, none, none]
    numPrvKeys := 0, adminVerified := false }

/-- A pre-compaction indexed state with `dsc = 1025` (upper 14 bits = 1,
lower 10 bits = 1), one live DO, the PW1-lifetime flag set, and one PIN
error recorded. -/
def c7Pre : ScanResult :=
  { doPtr := (List.replicate 19 none).set 10 (some [3, 0x61, 0x62, 0x63])
    pw1 := true
    cntCells := [some [0xfe, 0xff], none, none]
    dsc := 1025, numPrvKeys := 0, dataBytes := 3 }

/-- The state a fresh scan reads back from `c7Pre`'s compacted pool. -/
def c7Post : ScanResult :=
  gpg_data_scan (gpg_data_copy c7Pre) (List.replicate 19 none)


/-- An empty key-role environment: no sealed record, no keystring DOs. -/
def envEmpty : PrvKeyEnv :=
  { record := none, slotEnc := [], slotModulus := [], ksPw1DO := none,
    ksRcDO := none, numPrvKeys := 0 }

/-- Concrete seal/unseal fixtures: a 128-byte key, a 20-byte admin
keystring, and the 16 random DEK bytes. -/
def c3Key : List Nat := List.replicate 128 5

def c3Ks : List Nat := List.replicate 20 0xAB

def c3Dek : List Nat := List.replicate 16 0x5A

/-- The environment after sealing `c3Key` under `c3Ks` from `envEmpty`. -/
def c3Sealed : PrvKeyEnv :=
  (gpg_do_write_prvkey xorBlockF constHash constModulus envEmpty c3Key c3Ks [] c3Dek 7).2

/-!
# Theorems

First a small toolkit translating the C bit operations into `/`-`%`
arithmetic, then one theorem per claim (with witnesses and counterexamples
as required).
-/

theorem and_mask_shift (d m s : Nat) : d &&& (m <<< s) = ((d >>> s) &&& m) <<< s := by
  apply Nat.eq_of_testBit_eq
  intro i
  simp only [Nat.testBit_and, Nat.testBit_shiftLeft, Nat.testBit_shiftRight]
  by_cases h : s ≤ i
  · have h2 : s + (i - s) = i := by omega
    simp only [ge_iff_le, h, decide_True, Bool.true_and, h2]
  · simp [ge_iff_le, h]

theorem shiftLeft_shiftRight_self (x s : Nat) : (x <<< s) >>> s = x := by
  rw [Nat.shiftLeft_eq, Nat.shiftRight_eq_div_pow]
  exact Nat.mul_div_cancel x (Nat.pos_pow_of_pos s (by norm_num))

theorem shiftLeft_shiftRight_sub (x a b : Nat) (h : b ≤ a) :
    (x <<< a) >>> b = x <<< (a - b) := by
  rw [Nat.shiftLeft_eq, Nat.shiftRight_eq_div_pow, Nat.shiftLeft_eq]
  have h2 : (2 : Nat) ^ a = 2 ^ (a - b) * 2 ^ b := by
    rw [← pow_add]; congr 1; omega
  rw [h2, ← Nat.mul_assoc]
  exact Nat.mul_div_cancel _ (Nat.pos_pow_of_pos b (by norm_num))

theorem or_small_add (a b i : Nat) (ha : ∃ m, a = 2 ^ i * m) (hb : b < 2 ^ i) :
    a ||| b = a + b := by
  obtain ⟨m, rfl⟩ := ha
  rw [← Nat.mul_add_lt_is_or hb]

/-- The `h14` cell bytes in arithmetic form: for `d < 2^24` they carry
`d >>> 10` as `(0x80 + high, low)`. -/
theorem dscH14Bytes_eq (d : Nat) (hd : d < 2 ^ 24) :
    dscH14Bytes d = [0x80 + (d >>> 10) / 256, (d >>> 10) % 256] := by
  have h10 : d >>> 10 = d / 1024 := by rw [Nat.shiftRight_eq_div_pow]
  have h18 : d >>> 18 = d / 262144 := by rw [Nat.shiftRight_eq_div_pow]
  have hdd : d / 1024 / 256 = d / 262144 := by
    rw [Nat.div_div_eq_div_mul]
  have hA : (d &&& 0xfc0000) >>> 18 = d / 262144 := by
    rw [show (0xfc0000 : Nat) = 0x3f <<< 18 from rfl, and_mask_shift,
        shiftLeft_shiftRight_self,
        show (0x3f : Nat) = 2 ^ 6 - 1 from rfl, Nat.and_pow_two_sub_one_eq_mod, h18]
    omega
  have hB : (d &&& 0x03fc00) >>> 2 = ((d / 1024) % 256) <<< 8 := by
    rw [show (0x03fc00 : Nat) = 0xff <<< 10 from rfl, and_mask_shift,
        shiftLeft_shiftRight_sub _ 10 2 (by norm_num),
        show (0xff : Nat) = 2 ^ 8 - 1 from rfl, Nat.and_pow_two_sub_one_eq_mod, h10]
  have hw : NR_COUNTER_DS ||| ((d &&& 0xfc0000) >>> 18) ||| ((d &&& 0x03fc00) >>> 2)
      = ((d / 1024) % 256) * 256 + (0x80 + d / 262144) := by
    rw [hA, hB]
    rw [show NR_COUNTER_DS ||| (d / 262144) = 0x80 + d / 262144 from
      or_small_add _ _ 7 ⟨1, rfl⟩ (by omega)]
    rw [Nat.or_comm, Nat.shiftLeft_eq]
    rw [or_small_add _ _ 8 ⟨(d / 1024) % 256, by ring⟩ (by omega)]
  simp only [dscH14Bytes, hw]
  have h1 : (((d / 1024) % 256) * 256 + (0x80 + d / 262144)) &&& 0xff
      = 0x80 + d / 262144 := by
    rw [show (0xff : Nat) = 2 ^ 8 - 1 from rfl, Nat.and_pow_two_sub_one_eq_mod]
    omega
  have h2 : (((d / 1024) % 256) * 256 + (0x80 + d / 262144)) >>> 8
      = (d / 1024) % 256 := by
    rw [Nat.shiftRight_eq_div_pow]
    omega
  rw [h1, h2, h10, hdd]

/-- The `l10` cell bytes in arithmetic form: they carry `d % 1024` as
`(0xc0 + high, low)`. -/
theorem dscL10Bytes_eq (d : Nat) :
    dscL10Bytes d = [0xc0 + (d % 1024) / 256, d % 256] := by
  have h8 : d >>> 8 = d / 256 := by rw [Nat.shiftRight_eq_div_pow]
  have hA : (d &&& 0x0300) >>> 8 = (d / 256) % 4 := by
    rw [show (0x0300 : Nat) = 0x3 <<< 8 from rfl, and_mask_shift,
        shiftLeft_shiftRight_self,
        show (0x3 : Nat) = 2 ^ 2 - 1 from rfl, Nat.and_pow_two_sub_one_eq_mod, h8]
  have hB : (d &&& 0x00ff) <<< 8 = (d % 256) * 256 := by
    rw [show (0x00ff : Nat) = 2 ^ 8 - 1 from rfl, Nat.and_pow_two_sub_one_eq_mod,
        Nat.shiftLeft_eq]
  have hw : NR_COUNTER_DS_LSB ||| ((d &&& 0x0300) >>> 8) ||| ((d &&& 0x00ff) <<< 8)
      = (d % 256) * 256 + (0xc0 + (d / 256) % 4) := by
    rw [hA, hB]
    rw [show NR_COUNTER_DS_LSB ||| ((d / 256) % 4) = 0xc0 + (d / 256) % 4 from
      or_small_add _ _ 6 ⟨3, rfl⟩ (by omega)]
    rw [Nat.or_comm]
    rw [or_small_add _ _ 8 ⟨d % 256, by ring⟩ (by omega)]
  simp only [dscL10Bytes, hw]
  have h1 : ((d % 256) * 256 + (0xc0 + (d / 256) % 4)) &&& 0xff
      = 0xc0 + (d % 1024) / 256 := by
    rw [show (0xff : Nat) = 2 ^ 8 - 1 from rfl, Nat.and_pow_two_sub_one_eq_mod,
        show (1024 : Nat) = 256 * 4 from rfl, ← Nat.mod_mul_right_div_self d 256 4]
    omega
  have h2 : ((d % 256) * 256 + (0xc0 + (d / 256) % 4)) >>> 8 = d % 256 := by
    rw [Nat.shiftRight_eq_div_pow]
    omega
  rw [h1, h2]

/-- The value law of the DSC increment. -/
theorem incrDscIter_eq (n c0 : Nat) (h : c0 < 2 ^ 24) :
    incrDscIter n c0 = (c0 + n) % 2 ^ 24 := by
  induction n with
  | zero => simpa [incrDscIter] using (Nat.mod_eq_of_lt h).symm
  | succ n ih =>
      simp only [incrDscIter, ih, gpg_increment_dsc_value]
      rw [show (0xffffff : Nat) = 2 ^ 24 - 1 from rfl, Nat.and_pow_two_sub_one_eq_mod]
      omega

theorem dsCountBytes_eq (v : Nat) :
    dsCountBytes v = [v / 65536 % 256, v / 256 % 256, v % 256] := by
  simp only [dsCountBytes]
  rw [show (0xff : Nat) = 2 ^ 8 - 1 from rfl]
  simp only [Nat.and_pow_two_sub_one_eq_mod, Nat.shiftRight_eq_div_pow]

/-! ### Claim C2

The symbolic-pool machinery: one scan step per encoded cell, the induction
over a whole encoded pool, and the position bound on the recorded `l10`
cell, then the torn-rollover theorem. -/
theorem encodeCell_length_even (cl : Cell) : (encodeCell cl).length % 2 = 0 := by
  cases cl with
  | doC nr payload =>
      simp only [encodeCell]
      by_cases h : payload.length % 2 = 1
      · rw [if_pos h]
        simp only [List.length_append, List.length_cons, List.length_nil]
        omega
      · rw [if_neg h]
        simp only [List.length_append, List.length_cons, List.length_nil]
        omega
  | released => simp [encodeCell]
  | dsH v => simp [encodeCell]
  | dsL v => simp [encodeCell]
  | pw1B => simp [encodeCell]
  | cnt w v => simp [encodeCell]

theorem encodeCell_length_pos (cl : Cell) : 2 ≤ (encodeCell cl).length := by
  cases cl with
  | doC nr payload =>
      simp only [encodeCell]
      by_cases h : payload.length % 2 = 1
      · rw [if_pos h]
        simp only [List.length_append, List.length_cons, List.length_nil]
        omega
      · rw [if_neg h]
        simp only [List.length_append, List.length_cons, List.length_nil]
        omega
  | released => simp [encodeCell]
  | dsH v => simp [encodeCell]
  | dsL v => simp [encodeCell]
  | pw1B => simp [encodeCell]
  | cnt w v => simp [encodeCell]

theorem encodePool_two_le (cells : List Cell) :
    2 * cells.length ≤ (encodePool cells).length := by
  induction cells with
  | nil => simp [encodePool]
  | cons c cs ih =>
      have h1 : encodePool (c :: cs) = encodeCell c ++ encodePool cs := by
        simp [encodePool]
      rw [h1, List.length_append, List.length_cons]
      have := encodeCell_length_pos c
      omega

theorem scanLoop_cell (cl : Cell) (fuel : Nat) (rest : List Nat) (pos : Nat) (st : ScanSt)
    (hwf : wfCell cl = true) (hpos : pos % 2 = 0) :
    scanLoop (fuel + 1) (encodeCell cl ++ rest) pos st
      = scanLoop fuel rest (pos + (encodeCell cl).length) (stepCell st pos cl) := by
  cases cl with
  | released =>
      show scanLoop (fuel + 1) (0 :: 0 :: rest) pos st = _
      simp only [scanLoop, List.headD]
      norm_num [NR_EMPTY, stepCell, encodeCell]
  | dsH v =>
      have hv : v < 0x4000 := by simpa [wfCell] using hwf
      have hd : v / 256 < 64 := by omega
      show scanLoop (fuel + 1) ((0x80 + v / 256) :: (v % 256) :: rest) pos st = _
      simp only [scanLoop, List.headD]
      rw [if_neg (by simp only [NR_EMPTY]; omega)]
      rw [if_neg (by omega)]
      rw [if_neg (by omega)]
      rw [if_pos (by constructor <;> omega)]
      simp [encodeCell, stepCell]
  | dsL v =>
      have hv : v < 0x400 := by simpa [wfCell] using hwf
      have hd : v / 256 < 4 := by omega
      show scanLoop (fuel + 1) ((0xc0 + v / 256) :: (v % 256) :: rest) pos st = _
      simp only [scanLoop, List.headD]
      rw [if_neg (by simp only [NR_EMPTY]; omega)]
      rw [if_neg (by omega)]
      rw [if_neg (by omega)]
      rw [if_neg (by omega)]
      rw [if_pos (by constructor <;> omega)]
      simp [encodeCell, stepCell]
  | pw1B =>
      show scanLoop (fuel + 1) (NR_BOOL_PW1_LIFETIME :: 0 :: rest) pos st = _
      simp only [scanLoop, List.headD]
      rw [if_neg (by simp [NR_EMPTY, NR_BOOL_PW1_LIFETIME])]
      rw [if_neg (by simp [NR_BOOL_PW1_LIFETIME])]
      rw [if_neg (by simp [NR_BOOL_PW1_LIFETIME])]
      rw [if_neg (by simp [NR_BOOL_PW1_LIFETIME])]
      rw [if_neg (by simp [NR_BOOL_PW1_LIFETIME])]
      simp only [if_true]
      simp [encodeCell, stepCell]
  | cnt w v =>
      have hw : w < 3 := by
        have h := hwf
        simp [wfCell] at h
        exact h.1.1
      show scanLoop (fuel + 1)
          (NR_COUNTER_123 :: w :: (cntEnc v &&& 0xff) :: (cntEnc v >>> 8) :: rest) pos st = _
      simp only [scanLoop, List.headD]
      rw [if_neg (by simp [NR_EMPTY, NR_COUNTER_123])]
      rw [if_neg (by simp [NR_COUNTER_123])]
      rw [if_neg (by simp [NR_COUNTER_123])]
      rw [if_neg (by simp only [NR_COUNTER_123]; omega)]
      rw [if_neg (by simp only [NR_COUNTER_123]; omega)]
      rw [if_neg (by simp [NR_COUNTER_123, NR_BOOL_PW1_LIFETIME])]
      simp only [if_true]
      rw [if_pos (by simp only [PW_ERR_PW3]; omega)]
      simp [encodeCell, stepCell]
  | doC nr payload =>
      have h := hwf
      simp only [wfCell, Bool.and_eq_true, decide_eq_true_eq] at h
      have hnr1 : 1 ≤ nr := h.1.1
      have hnr2 : nr < 20 := h.1.2
      show scanLoop (fuel + 1)
          (nr :: payload.length ::
            (payload ++ (if payload.length % 2 = 1 then [0xff] else []) ++ rest)) pos st = _
      simp only [scanLoop, List.headD]
      rw [if_neg (by simp only [NR_EMPTY]; omega)]
      rw [if_neg (by omega)]
      rw [if_pos (by omega)]
      by_cases hp : payload.length % 2 = 1
      · simp only [if_pos hp]
        have hmod : (pos + 2 + payload.length) % 2 = 1 := by omega
        have htake : (payload.length :: (payload ++ [0xff] ++ rest)).take (payload.length + 1)
            = payload.length :: payload := by
          rw [List.take_succ_cons, List.append_assoc, List.take_left]
        have hdrop : (payload.length :: (payload ++ [0xff] ++ rest)).drop
              (payload.length + 1 + (pos + 2 + payload.length) % 2) = rest := by
          rw [hmod,
              show payload.length + 1 + 1 = (payload ++ [0xff]).length + 1 by simp,
              List.drop_succ_cons, List.drop_left]
        rw [htake, hdrop, hmod]
        have hlen : pos + (encodeCell (Cell.doC nr payload)).length
            = pos + 2 + payload.length + 1 := by
          simp only [encodeCell, if_pos hp, List.length_append, List.length_cons,
            List.length_nil]
          omega
        rw [hlen]
        simp only [stepCell]
      · simp only [if_neg hp, List.append_nil]
        have hmod : (pos + 2 + payload.length) % 2 = 0 := by omega
        have htake : (payload.length :: (payload ++ rest)).take (payload.length + 1)
            = payload.length :: payload := by
          rw [List.take_succ_cons, List.take_left]
        have hdrop : (payload.length :: (payload ++ rest)).drop
              (payload.length + 1 + (pos + 2 + payload.length) % 2) = rest := by
          rw [hmod, Nat.add_zero, List.drop_succ_cons, List.drop_left]
        rw [htake, hdrop, hmod]
        have hlen : pos + (encodeCell (Cell.doC nr payload)).length
            = pos + 2 + payload.length + 0 := by
          simp only [encodeCell, if_neg hp, List.length_append, List.length_cons,
            List.length_nil]
          omega
        rw [hlen]
        simp only [stepCell]

theorem scanLoop_encodePool (cells : List Cell) :
    ∀ (fuel : Nat) (rest : List Nat) (pos : Nat) (st : ScanSt),
    (∀ cl ∈ cells, wfCell cl = true) → pos % 2 = 0 →
    scanLoop (cells.length + fuel) (encodePool cells ++ rest) pos st
      = scanLoop fuel rest (pos + (encodePool cells).length) (foldCells st pos cells) := by
  induction cells with
  | nil =>
      intro fuel rest pos st _ _
      simp [encodePool, foldCells]
  | cons c cs ih =>
      intro fuel rest pos st hwf hpos
      have hstep : encodePool (c :: cs) ++ rest = encodeCell c ++ (encodePool cs ++ rest) := by
        simp [encodePool]
      rw [hstep]
      rw [show (c :: cs).length + fuel = (cs.length + fuel) + 1 by simp; omega]
      rw [scanLoop_cell c (cs.length + fuel) _ pos st (hwf c (by simp)) hpos]
      rw [ih fuel rest (pos + (encodeCell c).length) (stepCell st pos c)
        (fun cl hm => hwf cl (by simp [hm]))
        (by have := encodeCell_length_even c; omega)]
      have hposeq : pos + (encodeCell c).length + (encodePool cs).length
          = pos + (encodePool (c :: cs)).length := by
        simp [encodePool]
        omega
      rw [hposeq]
      have hfold : foldCells (stepCell st pos c) (pos + (encodeCell c).length) cs
          = foldCells st pos (c :: cs) := by
        simp [foldCells]
      rw [hfold]

theorem foldCells_l10_bound (cells : List Cell) :
    ∀ (st : ScanSt) (pos : Nat),
    (foldCells st pos cells).l10 = st.l10 ∨
    ∃ t, (foldCells st pos cells).l10 = some t ∧ pos ≤ t.1 ∧
      t.1 < pos + (encodePool cells).length := by
  induction cells with
  | nil =>
      intro st pos
      left
      rfl
  | cons c cs ih =>
      intro st pos
      have hle : 2 ≤ (encodeCell c).length := encodeCell_length_pos c
      have hlen : (encodePool (c :: cs)).length
          = (encodeCell c).length + (encodePool cs).length := by
        simp [encodePool]
      have hfold : foldCells st pos (c :: cs)
          = foldCells (stepCell st pos c) (pos + (encodeCell c).length) cs := rfl
      rw [hfold]
      rcases ih (stepCell st pos c) (pos + (encodeCell c).length) with h | ⟨t, h1, h2, h3⟩
      · rw [h]
        cases c with
        | dsL v =>
            right
            exact ⟨(pos, 0xc0 + v / 256, v % 256), rfl, by omega, by omega⟩
        | released => left; rfl
        | doC nr payload => left; rfl
        | dsH v => left; rfl
        | pw1B => left; rfl
        | cnt w v => left; rfl
      · right
        refine ⟨t, h1, by omega, by omega⟩

theorem scanLoop_emptyByte (f pos : Nat) (st : ScanSt) :
    scanLoop (f + 1) [NR_EMPTY] pos st = st := by
  simp [scanLoop]

theorem foldCells_append (xs ys : List Cell) :
    ∀ (st : ScanSt) (pos : Nat),
    foldCells st pos (xs ++ ys)
      = foldCells (foldCells st pos xs) (pos + (encodePool xs).length) ys := by
  induction xs with
  | nil => intro st pos; simp [foldCells, encodePool]
  | cons x xs ih =>
      intro st pos
      show foldCells (stepCell st pos x) (pos + (encodeCell x).length) (xs ++ ys) = _
      rw [ih]
      have h1 : pos + (encodeCell x).length + (encodePool xs).length
          = pos + (encodePool (x :: xs)).length := by
        simp [encodePool]
        omega
      rw [h1]
      rfl

/-- Claim C2: a crash between the two halfword writes of a DSC low-10-bit
rollover cannot make the next scan under-count.  On the rollover the
increment writes the `h14` cell first (`gpg_increment_dsc_writes`), and a
pool that ends after just that first write — any well-formed pool whose
scan read `c`, then the lone `h14` cell — rescans to exactly `c + 1`, the
true count: the stale `l10` cell (if any) lies physically before the new
`h14` cell and is treated as 0 by the torn-write rule. -/
theorem C2_torn_rollover (cells : List Cell) (c : Nat)
    (hwf : ∀ cl ∈ cells, wfCell cl = true)
    (_hc : (gpg_data_scan (encodePool cells ++ [NR_EMPTY]) (List.replicate 19 none)).dsc = c)
    (hroll : (c + 1) % 1024 = 0)
    (hlt : c + 1 < 2 ^ 24) :
    gpg_increment_dsc_value c = c + 1 ∧
    gpg_increment_dsc_writes (c + 1) = [dscH14Bytes (c + 1), dscL10Bytes 0] ∧
    (gpg_data_scan (encodePool cells ++ dscH14Bytes (c + 1) ++ [NR_EMPTY])
        (List.replicate 19 none)).dsc = c + 1 := by
  have hvlt : (c + 1) >>> 10 < 0x4000 := by
    rw [Nat.shiftRight_eq_div_pow]
    omega
  refine ⟨?_, ?_, ?_⟩
  · simp only [gpg_increment_dsc_value]
    rw [show (0xffffff : Nat) = 2 ^ 24 - 1 from rfl, Nat.and_pow_two_sub_one_eq_mod]
    omega
  · simp only [gpg_increment_dsc_writes]
    rw [if_pos (by
      rw [show (0x3ff : Nat) = 2 ^ 10 - 1 from rfl, Nat.and_pow_two_sub_one_eq_mod]
      omega)]
  · have hbytes : dscH14Bytes (c + 1) = encodeCell (.dsH ((c + 1) >>> 10)) := by
      rw [dscH14Bytes_eq _ hlt]
      simp [encodeCell]
    have hpool : encodePool cells ++ dscH14Bytes (c + 1) ++ [NR_EMPTY]
        = encodePool (cells ++ [.dsH ((c + 1) >>> 10)]) ++ [NR_EMPTY] := by
      rw [hbytes]
      simp [encodePool]
    rw [hpool]
    have hwf2 : ∀ cl ∈ cells ++ [Cell.dsH ((c + 1) >>> 10)], wfCell cl = true := by
      intro cl hm
      rcases List.mem_append.mp hm with h | h
      · exact hwf cl h
      · simp at h
        subst h
        simpa [wfCell] using hvlt
    set cells2 := cells ++ [Cell.dsH ((c + 1) >>> 10)] with hc2
    have h2n := encodePool_two_le cells2
    have hscan : gpg_data_scan (encodePool cells2 ++ [NR_EMPTY]) (List.replicate 19 none)
        = { doPtr := (foldCells (scanInit (List.replicate 19 none)) 0 cells2).doPtr
            pw1 := (foldCells (scanInit (List.replicate 19 none)) 0 cells2).pw1
            cntCells := (foldCells (scanInit (List.replicate 19 none)) 0 cells2).cnt
            dsc := scanDscValue (foldCells (scanInit (List.replicate 19 none)) 0 cells2)
            numPrvKeys :=
              (if (foldCells (scanInit (List.replicate 19 none)) 0 cells2).doPtr.getD
                  (NR_DO_PRVKEY_SIG - NR_DO__FIRST__) none ≠ none then (1 : Int) else 0) +
              (if (foldCells (scanInit (List.replicate 19 none)) 0 cells2).doPtr.getD
                  (NR_DO_PRVKEY_DEC - NR_DO__FIRST__) none ≠ none then 1 else 0) +
              (if (foldCells (scanInit (List.replicate 19 none)) 0 cells2).doPtr.getD
                  (NR_DO_PRVKEY_AUT - NR_DO__FIRST__) none ≠ none then 1 else 0)
            dataBytes := doBytesTotal (foldCells (scanInit (List.replicate 19 none)) 0 cells2).doPtr } := by
      simp only [gpg_data_scan]
      have hflen : (encodePool cells2 ++ [NR_EMPTY]).length + 1
          = cells2.length + ((encodePool cells2).length + 2 - cells2.length) := by
        simp only [List.length_append, List.length_cons, List.length_nil]
        omega
      rw [hflen]
      rw [scanLoop_encodePool cells2 _ [NR_EMPTY] 0 (scanInit (List.replicate 19 none))
        hwf2 (by rfl)]
      rw [show (encodePool cells2).length + 2 - cells2.length
          = ((encodePool cells2).length + 1 - cells2.length) + 1 by omega]
      rw [scanLoop_emptyByte]
    rw [hscan]
    simp only []
    have hsplit : foldCells (scanInit (List.replicate 19 none)) 0 cells2
        = stepCell (foldCells (scanInit (List.replicate 19 none)) 0 cells)
            (0 + (encodePool cells).length) (.dsH ((c + 1) >>> 10)) := by
      rw [hc2, foldCells_append]
      rfl
    rw [hsplit]
    set stC := foldCells (scanInit (List.replicate 19 none)) 0 cells with hstC
    set L := (encodePool cells).length with hL
    have hdecode : ∀ v : Nat, dscH14Decode (0 + L, 0x80 + v / 256, v % 256) = v := by
      intro v
      show ((0x80 + v / 256) - 0x80) <<< 8 ||| (v % 256) = v
      rw [show 0x80 + v / 256 - 0x80 = v / 256 by omega]
      rw [Nat.shiftLeft_eq]
      rw [or_small_add _ _ 8 ⟨v / 256, by ring⟩ (by omega)]
      omega
    have hvshift : ((c + 1) >>> 10) <<< 10 = c + 1 := by
      rw [Nat.shiftRight_eq_div_pow, Nat.shiftLeft_eq]
      have : (c + 1) / 2 ^ 10 * 2 ^ 10 = c + 1 := by
        have := Nat.div_add_mod (c + 1) 1024
        omega
      simpa using this
    rcases foldCells_l10_bound cells (scanInit (List.replicate 19 none)) 0 with hN | ⟨t, ht1, ht2, ht3⟩
    · rw [← hstC] at hN
      simp only [scanDscValue, stepCell, hN, scanInit]
      rw [hdecode, hvshift, Nat.or_zero]
    · rw [← hstC] at ht1
      rw [← hL] at ht3
      simp only [scanDscValue, stepCell, ht1]
      rw [if_pos (by simpa using ht3)]
      rw [hdecode, hvshift, Nat.or_zero]

theorem C2_torn_rollover_witness :
    gpg_increment_dsc_value 1023 = 1024 ∧
    gpg_increment_dsc_writes 1024 = [dscH14Bytes 1024, dscL10Bytes 0] ∧
    (gpg_data_scan (encodePool [.dsL 1023] ++ dscH14Bytes 1024 ++ [NR_EMPTY])
        (List.replicate 19 none)).dsc = 1024 :=
  C2_torn_rollover [.dsL 1023] 1023 (by decide) (by decide) (by decide) (by decide)

/-- Claim C4: after `n` calls to the DSC increment starting from `c0`, the
counter's logical value is `(c0 + n) mod 2^24`, and GET DATA on the
DS-counter tag (0x93) emits that value as three big-endian bytes followed by
`90 00`. -/
theorem C4_dsc_counter (n c0 : Nat) (st : CardState) (h0 : c0 < 2 ^ 24)
    (hst : st.dsc = incrDscIter n c0) :
    incrDscIter n c0 = (c0 + n) % 2 ^ 24 ∧
    gpg_do_get_data st GPG_DO_DS_COUNT =
      .ok [(c0 + n) % 2 ^ 24 / 65536 % 256, (c0 + n) % 2 ^ 24 / 256 % 256,
           (c0 + n) % 2 ^ 24 % 256, 0x90, 0x00] := by
  have hval := incrDscIter_eq n c0 h0
  refine ⟨hval, ?_⟩
  have hget : gpg_do_get_data st GPG_DO_DS_COUNT
      = .ok (dsCountBytes st.dsc ++ [0x90, 0x00]) := rfl
  rw [hget, hst, hval, dsCountBytes_eq]
  rfl

theorem C4_dsc_counter_witness :
    incrDscIter 2 5 = (5 + 2) % 2 ^ 24 ∧
    gpg_do_get_data { blankCard with dsc := 7 } GPG_DO_DS_COUNT =
      .ok [(5 + 2) % 2 ^ 24 / 65536 % 256, (5 + 2) % 2 ^ 24 / 256 % 256,
           (5 + 2) % 2 ^ 24 % 256, 0x90, 0x00] :=
  C4_dsc_counter 2 5 { blankCard with dsc := 7 } (by decide) (by decide)

/-- Claim C5, corrected: the flash counter does not saturate — after `k`
increments it reads `k`, so `min(k, 3)` is only correct on `k ≤ 3` (which is
what spec §8 states: "called `k` times (`k ≤ 3`)").  On that domain the
counter reads `min(k, 3) = k`, `passwd_locked` holds exactly at `k ≥ 3`, and
a reset returns the counter to 0. -/
theorem C5_pw_err_counter (which k : Nat) (hw : which < 3) (hk : k ≤ 3) :
    gpg_get_pw_err_counter (incrPwErrIter which k pwErrCleared) which = min k 3 ∧
    (gpg_passwd_locked (incrPwErrIter which k pwErrCleared) which = 1 ↔ 3 ≤ k) ∧
    gpg_get_pw_err_counter
      (gpg_reset_pw_err_counter (incrPwErrIter which k pwErrCleared) which) which = 0 := by
  interval_cases which <;> interval_cases k <;>
    refine ⟨by decide, by decide, by decide⟩

/-- Claim C5 fails as stated for `k = 4`: the counter reads 4, not
`min(4, 3) = 3` (nothing in the increment path saturates at
`PASSWORD_ERRORS_MAX`). -/
theorem C5_counterexample :
    gpg_get_pw_err_counter (incrPwErrIter 0 4 pwErrCleared) 0 = 4 ∧
    ¬ gpg_get_pw_err_counter (incrPwErrIter 0 4 pwErrCleared) 0 = min 4 3 := by
  decide

theorem C5_pw_err_counter_witness :
    gpg_get_pw_err_counter (incrPwErrIter 0 3 pwErrCleared) 0 = min 3 3 ∧
    (gpg_passwd_locked (incrPwErrIter 0 3 pwErrCleared) 0 = 1 ↔ 3 ≤ 3) ∧
    gpg_get_pw_err_counter
      (gpg_reset_pw_err_counter (incrPwErrIter 0 3 pwErrCleared) 0) 0 = 0 :=
  C5_pw_err_counter 0 3 (by decide) (by decide)

/-! ### List access helpers -/

theorem getD_set_self {α : Type} (l : List α) (i : Nat) (v d : α) (h : i < l.length) :
    (l.set i v).getD i d = v := by
  simp [List.getD_eq_getElem?_getD, List.getElem?_set_self, h]

theorem getD_set_other {α : Type} (l : List α) (i j : Nat) (v d : α) (h : i ≠ j) :
    (l.set i v).getD j d = l.getD j d := by
  simp [List.getD_eq_getElem?_getD, List.getElem?_set_ne h]

theorem map_getD_range (x : List Nat) (d : Nat) :
    (List.range x.length).map (fun k => x.getD k d) = x := by
  apply List.ext_getElem
  · simp
  · intro i h1 h2
    simp [List.getD_eq_getElem?_getD, List.getElem?_eq_getElem h2]

theorem getD_append_left {α : Type} (l l' : List α) (n : Nat) (d : α) (h : n < l.length) :
    (l ++ l').getD n d = l.getD n d := by
  simp [List.getD_eq_getElem?_getD, List.getElem?_append_left h]

theorem getD_append_right {α : Type} (l l' : List α) (n : Nat) (d : α) (h : l.length ≤ n) :
    (l ++ l').getD n d = l'.getD (n - l.length) d := by
  simp [List.getD_eq_getElem?_getD, List.getElem?_append_right h]

theorem listSlice_middle (pre mid post : List Nat) :
    listSlice (pre ++ (mid ++ post)) pre.length mid.length = mid := by
  unfold listSlice
  calc (List.range mid.length).map (fun k => (pre ++ (mid ++ post)).getD (pre.length + k) 0xFF)
      = (List.range mid.length).map (fun k => mid.getD k 0xFF) := by
        apply List.map_congr_left
        intro k hk
        rw [getD_append_right _ _ _ _ (by omega), Nat.add_sub_cancel_left,
            getD_append_left _ _ _ _ (List.mem_range.mp hk)]
    _ = mid := map_getD_range mid 0xFF

theorem listSlice_length (mem : List Nat) (pos n : Nat) : (listSlice mem pos n).length = n := by
  simp [listSlice]

theorem listSlice_zero_self (l : List Nat) : listSlice l 0 l.length = l := by
  unfold listSlice
  calc (List.range l.length).map (fun k => l.getD (0 + k) 0xFF)
      = (List.range l.length).map (fun k => l.getD k 0xFF) := by simp
    _ = l := map_getD_range l 0xFF

/-! ### CFB-128 mode laws -/

theorem zipXor_length (a b : List Nat) : (zipXor a b).length = min a.length b.length := by
  simp [zipXor]

theorem zipXor_zipXor (a : List Nat) : ∀ b : List Nat, a.length ≤ b.length →
    zipXor (zipXor a b) b = a := by
  induction a with
  | nil => intro b h; simp [zipXor]
  | cons x xs ih =>
      intro b h
      cases b with
      | nil => simp at h
      | cons y ys =>
          simp only [zipXor, List.zipWith_cons_cons] at *
          have hx : Nat.xor (Nat.xor x y) y = x := by
            show (x ^^^ y) ^^^ y = x
            rw [Nat.xor_assoc, Nat.xor_self, Nat.xor_zero]
          rw [hx]
          congr 1
          exact ih ys (by simpa using h)

theorem cfbEncLoop_nil (F : List Nat → List Nat → List Nat) (key : List Nat)
    (f : Nat) (sr : List Nat) : cfbEncLoop F key f sr [] = [] := by
  cases f <;> rfl

theorem cfbDecLoop_nil (F : List Nat → List Nat → List Nat) (key : List Nat)
    (f : Nat) (sr : List Nat) : cfbDecLoop F key f sr [] = [] := by
  cases f <;> rfl

theorem cfbDecLoop_succ (F : List Nat → List Nat → List Nat) (key : List Nat)
    (f : Nat) (sr ct : List Nat) (h : ct ≠ []) :
    cfbDecLoop F key (f + 1) sr ct
      = zipXor (ct.take 16) (F key sr) ++ cfbDecLoop F key f (ct.take 16) (ct.drop 16) := by
  cases ct with
  | nil => exact absurd rfl h
  | cons a as => rfl

theorem cfbEncLoop_length (F : List Nat → List Nat → List Nat) (key : List Nat)
    (hF : ∀ sr, (F key sr).length = 16) :
    ∀ (f : Nat) (sr pt : List Nat), pt.length ≤ f →
      (cfbEncLoop F key f sr pt).length = pt.length := by
  intro f
  induction f with
  | zero =>
      intro sr pt h
      have hpt : pt = [] := by
        cases pt
        · rfl
        · simp at h
      subst hpt; rfl
  | succ f ih =>
      intro sr pt h
      cases pt with
      | nil => rfl
      | cons p ps =>
          have hps : ((p :: ps).drop 16).length ≤ f := by
            simp only [List.length_drop, List.length_cons] at *
            omega
          simp only [cfbEncLoop]
          rw [List.length_append, ih _ _ hps, zipXor_length, hF]
          simp only [List.length_take, List.length_drop, List.length_cons]
          omega

theorem cfbDecLoop_length (F : List Nat → List Nat → List Nat) (key : List Nat)
    (hF : ∀ sr, (F key sr).length = 16) :
    ∀ (f : Nat) (sr ct : List Nat), ct.length ≤ f →
      (cfbDecLoop F key f sr ct).length = ct.length := by
  intro f
  induction f with
  | zero =>
      intro sr ct h
      have hct : ct = [] := by
        cases ct
        · rfl
        · simp at h
      subst hct; rfl
  | succ f ih =>
      intro sr ct h
      cases ct with
      | nil => rfl
      | cons c cs =>
          have hcs : ((c :: cs).drop 16).length ≤ f := by
            simp only [List.length_drop, List.length_cons] at *
            omega
          simp only [cfbDecLoop]
          rw [List.length_append, ih _ _ hcs, zipXor_length, hF]
          simp only [List.length_take, List.length_drop, List.length_cons]
          omega

/-- CFB decryption inverts CFB encryption for any keyed block function with
16-byte output — in particular for AES-128. -/
theorem cfb_loop_roundtrip (F : List Nat → List Nat → List Nat) (key : List Nat)
    (hF : ∀ sr, (F key sr).length = 16) :
    ∀ (f : Nat) (sr pt : List Nat), pt.length ≤ f →
      cfbDecLoop F key f sr (cfbEncLoop F key f sr pt) = pt := by
  intro f
  induction f with
  | zero =>
      intro sr pt h
      have hpt : pt = [] := by
        cases pt
        · rfl
        · simp at h
      subst hpt; rfl
  | succ f ih =>
      intro sr pt h
      cases pt with
      | nil => rfl
      | cons p ps =>
          simp only [cfbEncLoop]
          set blk := (p :: ps).take 16 with hblk
          set c := zipXor blk (F key sr) with hc
          have hlc : c.length = min (p :: ps).length 16 := by
            rw [hc, zipXor_length, hF, hblk, List.length_take]
            omega
          have hcne : c ≠ [] := by
            intro hcc
            rw [hcc] at hlc
            simp at hlc
            omega
          have hblk_le : blk.length ≤ 16 := by
            rw [hblk, List.length_take]; omega
          have hblk_xor : zipXor c (F key sr) = blk :=
            zipXor_zipXor blk (F key sr) (by rw [hF]; exact hblk_le)
          by_cases hl : (p :: ps).length ≤ 16
          · have hdrop : (p :: ps).drop 16 = [] := List.drop_eq_nil_of_le (by omega)
            rw [hdrop, cfbEncLoop_nil, List.append_nil]
            rw [cfbDecLoop_succ _ _ _ _ _ hcne]
            rw [List.take_of_length_le (by omega), List.drop_eq_nil_of_le (by omega),
                cfbDecLoop_nil, List.append_nil, hblk_xor, hblk,
                List.take_of_length_le hl]
          · have hc16 : c.length = 16 := by omega
            have hctne : c ++ cfbEncLoop F key f c ((p :: ps).drop 16) ≠ [] := by
              intro hcc
              exact hcne (List.append_eq_nil.mp hcc).1
            rw [cfbDecLoop_succ _ _ _ _ _ hctne]
            rw [show (16 : Nat) = c.length from hc16.symm, List.take_left, List.drop_left]
            rw [hc16]
            have hps : ((p :: ps).drop 16).length ≤ f := by
              simp only [List.length_drop, List.length_cons] at *
              omega
            rw [ih c _ hps, hblk_xor, hblk, List.take_append_drop]

theorem encryptCFB_length (F : List Nat → List Nat → List Nat) (key data : List Nat)
    (hF : ∀ sr, (F key sr).length = 16) :
    (encryptCFB F key data).length = data.length :=
  cfbEncLoop_length F key hF _ _ _ (by omega)

theorem decryptCFB_length (F : List Nat → List Nat → List Nat) (key data : List Nat)
    (hF : ∀ sr, (F key sr).length = 16) :
    (decryptCFB F key data).length = data.length :=
  cfbDecLoop_length F key hF _ _ _ (by omega)

theorem decryptCFB_encryptCFB (F : List Nat → List Nat → List Nat) (key data : List Nat)
    (hF : ∀ sr, (F key sr).length = 16) :
    decryptCFB F key (encryptCFB F key data) = data := by
  unfold decryptCFB encryptCFB
  rw [cfbEncLoop_length F key hF _ _ _ (by omega)]
  exact cfb_loop_roundtrip F key hF _ _ _ (by omega)

/-! ### Claim C3

Slice/append lemmas first, then a generic unsealing lemma over an arbitrary
sealed record, then the seal-unseal round trip. -/

theorem listSlice_eq_take (l : List Nat) (n : Nat) (h : n ≤ l.length) :
    listSlice l 0 n = l.take n := by
  apply List.ext_getElem
  · simp [listSlice_length, List.length_take]
    omega
  · intro i h1 h2
    simp only [listSlice, List.getElem_map, List.getElem_range, List.getElem_take]
    have hi : i < l.length := by
      rw [listSlice_length] at h1
      omega
    simp [List.getD_eq_getElem?_getD, List.getElem?_eq_getElem hi]

theorem listSlice_eq_drop (l : List Nat) (p n : Nat) (h : p + n = l.length) :
    listSlice l p n = l.drop p := by
  apply List.ext_getElem
  · simp [listSlice_length, List.length_drop]
    omega
  · intro i h1 h2
    simp only [listSlice, List.getElem_map, List.getElem_range, List.getElem_drop]
    have hi : p + i < l.length := by
      rw [listSlice_length] at h1
      omega
    simp [List.getD_eq_getElem?_getD, List.getElem?_eq_getElem hi]

/-- `do_data+5+16*3` lands exactly on the PW3 DEK copy once the record
fields have their stored sizes. -/
theorem dekAt_three (pd : PrvkeyData)
    (h0 : pd.keyAddrBytes.length = 4) (h1 : pd.crm_encrypted.length = 16)
    (h2 : pd.dek_encrypted_1.length = 16) (h3 : pd.dek_encrypted_2.length = 16)
    (h4 : pd.dek_encrypted_3.length = 16) :
    dekAt pd 3 = pd.dek_encrypted_3 := by
  unfold dekAt prvkeyBytes
  have hx : pd.keyAddrBytes ++ pd.crm_encrypted ++ pd.dek_encrypted_1 ++
      pd.dek_encrypted_2 ++ pd.dek_encrypted_3
      = (pd.keyAddrBytes ++ pd.crm_encrypted ++ pd.dek_encrypted_1 ++ pd.dek_encrypted_2)
        ++ (pd.dek_encrypted_3 ++ []) := by
    simp
  rw [hx]
  rw [show (4 + 16 * 3 : Nat)
      = (pd.keyAddrBytes ++ pd.crm_encrypted ++ pd.dek_encrypted_1 ++ pd.dek_encrypted_2).length by
    simp [h0, h1, h2, h3]]
  rw [show DATA_ENCRYPTION_KEY_SIZE = pd.dek_encrypted_3.length by rw [h4]; rfl]
  exact listSlice_middle _ _ _

/-- The loader's `kd_enc` (key-slot contents followed by the flash record's
`crm_encrypted`) reassembles the sealed ciphertext. -/
theorem slotEnc_crm_recompose (encKd : List Nat) (h : encKd.length = 144) :
    listSlice (listSlice encKd 0 KEY_CONTENT_LEN) 0 KEY_CONTENT_LEN
      ++ listSlice encKd KEY_CONTENT_LEN ADDITIONAL_DATA_SIZE = encKd := by
  have hslot : listSlice encKd 0 KEY_CONTENT_LEN = encKd.take 128 := by
    rw [show KEY_CONTENT_LEN = (128 : Nat) from rfl]
    exact listSlice_eq_take encKd 128 (by omega)
  have hcrm : listSlice encKd KEY_CONTENT_LEN ADDITIONAL_DATA_SIZE = encKd.drop 128 := by
    rw [show KEY_CONTENT_LEN = (128 : Nat) from rfl,
        show ADDITIONAL_DATA_SIZE = (16 : Nat) from rfl]
    exact listSlice_eq_drop encKd 128 16 (by omega)
  have houter : listSlice (encKd.take 128) 0 KEY_CONTENT_LEN = encKd.take 128 := by
    rw [show KEY_CONTENT_LEN = (128 : Nat) from rfl]
    rw [listSlice_eq_take _ 128 (by simp [List.length_take]; omega)]
    rw [List.take_take]
    norm_num
  rw [hslot, hcrm, houter, List.take_append_drop]

/-- The magic slice of a well-formed plaintext `kd` is the trailing magic. -/
theorem magic_slice (s c4 r4 : List Nat)
    (hs : s.length = 128) (hc : c4.length = 4) (hr : r4.length = 4) :
    listSlice (s ++ c4 ++ r4 ++ GNUK_MAGIC) (KEY_CONTENT_LEN + 8) KEY_MAGIC_LEN
      = GNUK_MAGIC := by
  have hx : s ++ c4 ++ r4 ++ GNUK_MAGIC = (s ++ c4 ++ r4) ++ (GNUK_MAGIC ++ []) := by
    simp
  rw [hx]
  rw [show (KEY_CONTENT_LEN + 8 : Nat) = (s ++ c4 ++ r4).length by
    simp [hs, hc, hr]; rfl]
  rw [show KEY_MAGIC_LEN = (GNUK_MAGIC : List Nat).length from rfl]
  exact listSlice_middle _ _ _

/-- Unsealing at `who = 3` with the keystring that encrypted the third DEK
copy succeeds and recovers the plaintext `kd0`, for any record of the sealed
shape. -/
theorem load_of_record (F : List Nat → List Nat → List Nat) (env2 : PrvKeyEnv)
    (keystring kd0 dek D1 D2 : List Nat)
    (hF : ∀ k sr, (F k sr).length = 16)
    (hdek16 : dek.length = 16)
    (hD1 : D1.length = 16) (hD2 : D2.length = 16)
    (hkd0len : kd0.length = 144)
    (hmag : listSlice kd0 (KEY_CONTENT_LEN + 8) KEY_MAGIC_LEN = GNUK_MAGIC)
    (hrec : env2.record = some
      { keyAddrBytes := [0, 0, 0, 0]
        crm_encrypted := listSlice (encryptCFB F dek kd0) KEY_CONTENT_LEN ADDITIONAL_DATA_SIZE
        dek_encrypted_1 := D1
        dek_encrypted_2 := D2
        dek_encrypted_3 := encryptCFB F keystring dek })
    (hslot : env2.slotEnc = listSlice (encryptCFB F dek kd0) 0 KEY_CONTENT_LEN) :
    gpg_do_load_prvkey F env2 3 keystring = (1, kd0) := by
  have hencLen : (encryptCFB F dek kd0).length = 144 := by
    rw [encryptCFB_length _ _ _ (hF _), hkd0len]
  simp only [gpg_do_load_prvkey, hrec]
  rw [dekAt_three _ (by rfl) (by rw [listSlice_length]; rfl)
      hD1 hD2 (by rw [encryptCFB_length _ _ _ (hF _), hdek16])]
  simp only []
  rw [decryptCFB_encryptCFB F keystring dek (hF keystring)]
  rw [hslot]
  rw [slotEnc_crm_recompose _ hencLen]
  rw [decryptCFB_encryptCFB F dek kd0 (hF dek)]
  rw [hmag]
  simp

/-- Claim C3, corrected: sealing a 128-byte key with `gpg_do_write_prvkey`
under an admin keystring and unsealing with `gpg_do_load_prvkey` at the
admin index recovers the key data and passes the magic check — but the DEK
copies sit at `who = 1` (PW1), `2` (RC), `3` (PW3), not at the spec's
0/1/2: the admin index is 3.  Unsealing returns 1 on success and 0 when no
record exists (the -1 branch fires on magic mismatch, e.g. at the spec's
index 2 — see the counterexample). -/
theorem C3_seal_unseal (F : List Nat → List Nat → List Nat) (S : List Nat → List Nat)
    (mc : List Nat → Option (List Nat)) (env : PrvKeyEnv)
    (key_data keystring pw3ks dekFresh modulus : List Nat) (rnd : Nat)
    (hF : ∀ k sr, (F k sr).length = 16)
    (hkey : key_data.length = 128)
    (hdek : dekFresh.length = 16)
    (hold : ∀ old, env.record = some old → old.dek_encrypted_3.length = 16)
    (hmc : mc key_data = some modulus) :
    (gpg_do_write_prvkey F S mc env key_data keystring pw3ks dekFresh rnd).1 = 0 ∧
    (gpg_do_load_prvkey F
        (gpg_do_write_prvkey F S mc env key_data keystring pw3ks dekFresh rnd).2
        3 keystring).1 = 1 ∧
    ((gpg_do_load_prvkey F
        (gpg_do_write_prvkey F S mc env key_data keystring pw3ks dekFresh rnd).2
        3 keystring).2).take KEY_CONTENT_LEN = key_data ∧
    (∀ (env2 : PrvKeyEnv) (who : Nat) (ks2 : List Nat), env2.record = none →
      gpg_do_load_prvkey F env2 who ks2 = (0, [])) := by
  have hlast : ∀ (env2 : PrvKeyEnv) (who : Nat) (ks2 : List Nat), env2.record = none →
      gpg_do_load_prvkey F env2 who ks2 = (0, []) := by
    intro env2 who ks2 h2
    simp [gpg_do_load_prvkey, h2]
  have hkd0len : (listSlice key_data 0 KEY_CONTENT_LEN
      ++ le4 (calc_check32 key_data KEY_CONTENT_LEN) ++ le4 rnd ++ GNUK_MAGIC).length
      = 144 := by
    simp [listSlice_length, le4, GNUK_MAGIC]
    rfl
  have hmag : listSlice (listSlice key_data 0 KEY_CONTENT_LEN
      ++ le4 (calc_check32 key_data KEY_CONTENT_LEN) ++ le4 rnd ++ GNUK_MAGIC)
      (KEY_CONTENT_LEN + 8) KEY_MAGIC_LEN = GNUK_MAGIC :=
    magic_slice _ _ _ (by rw [listSlice_length]; rfl) (by simp [le4]) (by simp [le4])
  have hload : (gpg_do_load_prvkey F
      (gpg_do_write_prvkey F S mc env key_data keystring pw3ks dekFresh rnd).2
      3 keystring)
      = (1, listSlice key_data 0 KEY_CONTENT_LEN
            ++ le4 (calc_check32 key_data KEY_CONTENT_LEN) ++ le4 rnd ++ GNUK_MAGIC) := by
    cases henv : env.record with
    | none =>
        cases h1 : env.ksPw1DO with
        | none =>
            cases h2 : env.ksRcDO with
            | none =>
                exact load_of_record F _ keystring _ dekFresh
                  (encryptCFB F (S OPENPGP_CARD_INITIAL_PW1) dekFresh)
                  (List.replicate DATA_ENCRYPTION_KEY_SIZE 0) hF hdek
                  (by rw [encryptCFB_length _ _ _ (hF _), hdek])
                  (by simp [DATA_ENCRYPTION_KEY_SIZE]) hkd0len hmag
                  (by simp only [gpg_do_write_prvkey, hmc, henv, h1, h2])
                  (by simp only [gpg_do_write_prvkey, hmc, henv, h1, h2])
            | some ks2 =>
                exact load_of_record F _ keystring _ dekFresh
                  (encryptCFB F (S OPENPGP_CARD_INITIAL_PW1) dekFresh)
                  (encryptCFB F (ks2.drop 1) dekFresh) hF hdek
                  (by rw [encryptCFB_length _ _ _ (hF _), hdek])
                  (by rw [encryptCFB_length _ _ _ (hF _), hdek]) hkd0len hmag
                  (by simp only [gpg_do_write_prvkey, hmc, henv, h1, h2])
                  (by simp only [gpg_do_write_prvkey, hmc, henv, h1, h2])
        | some ks1 =>
            cases h2 : env.ksRcDO with
            | none =>
                exact load_of_record F _ keystring _ dekFresh
                  (encryptCFB F (ks1.drop 1) dekFresh)
                  (List.replicate DATA_ENCRYPTION_KEY_SIZE 0) hF hdek
                  (by rw [encryptCFB_length _ _ _ (hF _), hdek])
                  (by simp [DATA_ENCRYPTION_KEY_SIZE]) hkd0len hmag
                  (by simp only [gpg_do_write_prvkey, hmc, henv, h1, h2])
                  (by simp only [gpg_do_write_prvkey, hmc, henv, h1, h2])
            | some ks2 =>
                exact load_of_record F _ keystring _ dekFresh
                  (encryptCFB F (ks1.drop 1) dekFresh)
                  (encryptCFB F (ks2.drop 1) dekFresh) hF hdek
                  (by rw [encryptCFB_length _ _ _ (hF _), hdek])
                  (by rw [encryptCFB_length _ _ _ (hF _), hdek]) hkd0len hmag
                  (by simp only [gpg_do_write_prvkey, hmc, henv, h1, h2])
                  (by simp only [gpg_do_write_prvkey, hmc, henv, h1, h2])
    | some old =>
        have h3 := hold old henv
        have hdekOld : (decryptCFB F pw3ks old.dek_encrypted_3).length = 16 := by
          rw [decryptCFB_length _ _ _ (hF _), h3]
        exact load_of_record F _ keystring _ (decryptCFB F pw3ks old.dek_encrypted_3)
          (encryptCFB F (S OPENPGP_CARD_INITIAL_PW1)
            (decryptCFB F pw3ks old.dek_encrypted_3))
          (List.replicate DATA_ENCRYPTION_KEY_SIZE 0) hF hdekOld
          (by rw [encryptCFB_length _ _ _ (hF _), hdekOld])
          (by simp [DATA_ENCRYPTION_KEY_SIZE]) hkd0len hmag
          (by simp only [gpg_do_write_prvkey, hmc, henv])
          (by simp only [gpg_do_write_prvkey, hmc, henv])
  refine ⟨?_, ?_, ?_, hlast⟩
  · simp only [gpg_do_write_prvkey, hmc]
  · rw [hload]
  · rw [hload]
    have hsl : listSlice key_data 0 KEY_CONTENT_LEN = key_data := by
      rw [show KEY_CONTENT_LEN = key_data.length by rw [hkey]; rfl]
      exact listSlice_zero_self key_data
    simp only [hsl]
    rw [show KEY_CONTENT_LEN = key_data.length by rw [hkey]; rfl]
    simp [List.take_left]

set_option maxRecDepth 4096 in
/-- Claim C3 fails at the spec's admin index 2: after a fresh seal, the
copy at `who = 2` is the (all-zero) RC copy, so unsealing there with the
admin keystring hits the magic mismatch and returns -1, not 1. -/
theorem C3_counterexample :
    (gpg_do_write_prvkey xorBlockF constHash constModulus envEmpty c3Key c3Ks [] c3Dek 7).1
      = 0 ∧
    (gpg_do_load_prvkey xorBlockF c3Sealed 2 c3Ks).1 = -1 := by
  constructor
  · rfl
  · decide

theorem C3_seal_unseal_witness :
    (gpg_do_write_prvkey xorBlockF constHash constModulus envEmpty c3Key c3Ks [] c3Dek 7).1
      = 0 ∧
    (gpg_do_load_prvkey xorBlockF c3Sealed 3 c3Ks).1 = 1 ∧
    (gpg_do_load_prvkey xorBlockF c3Sealed 3 c3Ks).2.take KEY_CONTENT_LEN = c3Key ∧
    gpg_do_load_prvkey xorBlockF envEmpty 3 c3Ks = (0, []) := by
  obtain ⟨a, b, c, d⟩ := C3_seal_unseal xorBlockF constHash constModulus envEmpty
    c3Key c3Ks [] c3Dek (List.replicate 256 0x77) 7
    (fun k sr => by simp [xorBlockF])
    (by simp [c3Key]) (by simp [c3Dek])
    (fun old h => by simp [envEmpty] at h) rfl
  exact ⟨a, b, c, d envEmpty 3 c3Ks rfl⟩

/-! ### Claim C1 -/

/-- Reading back a VAR DO whose `do_ptr` slot points at a fresh cell
appended after a prefix `p1`. -/
theorem var_read_fresh (st2 : CardState) (tag slot : Nat) (x p1 pad : List Nat)
    (hE : get_do_entry tag = some ⟨tag, .varK, .always, .adminAuthorized, .objVar slot⟩)
    (hpool : st2.pool = p1 ++ ([do_tag_to_nr tag, x.length] ++ (x ++ pad)))
    (hptr : st2.doPtrs.getD slot none = some (p1.length + 1)) :
    gpg_do_get_data st2 tag = .ok (x ++ [0x90, 0x00]) := by
  simp only [gpg_do_get_data, hE, copy_do, ac_check_status, hptr, copy_do_1, hpool]
  rw [show (p1 ++ ([do_tag_to_nr tag, x.length] ++ (x ++ pad))).getD (p1.length + 1) 0xff
      = x.length by
    rw [getD_append_right _ _ _ _ (by omega), Nat.add_sub_cancel_left]; rfl]
  rw [show p1.length + 1 + 1 = (p1 ++ [do_tag_to_nr tag, x.length]).length by simp]
  rw [show p1 ++ ([do_tag_to_nr tag, x.length] ++ (x ++ pad))
      = (p1 ++ [do_tag_to_nr tag, x.length]) ++ (x ++ pad) by simp]
  rw [listSlice_middle]
  simp

/-- Reading back an absent VAR DO yields the bare `90 00`. -/
theorem var_read_none (st2 : CardState) (tag slot : Nat)
    (hE : get_do_entry tag = some ⟨tag, .varK, .always, .adminAuthorized, .objVar slot⟩)
    (hptr : st2.doPtrs.getD slot none = none) :
    gpg_do_get_data st2 tag = .ok [0x90, 0x00] := by
  simp only [gpg_do_get_data, hE, copy_do, ac_check_status, hptr]
  rfl

/-- The round trip for one VAR table entry. -/
theorem var_put_get (st : CardState) (tag slot : Nat) (x : List Nat)
    (hE : get_do_entry tag = some ⟨tag, .varK, .always, .adminAuthorized, .objVar slot⟩)
    (hadmin : st.adminVerified = true)
    (hslot : slot < 19)
    (hlength : st.doPtrs.length = 19)
    (hx : x.length ≤ 255) :
    gpg_do_get_data (gpg_do_put_data st tag x x.length).1 tag = .ok (x ++ [0x90, 0x00]) := by
  by_cases hx0 : x = []
  · subst hx0
    have hput : (gpg_do_put_data st tag [] 0).1.doPtrs.getD slot none = none := by
      simp only [gpg_do_put_data, hE, hadmin, ac_check_status, if_true]
      cases hp : st.doPtrs.getD slot none <;>
        simp only [hp] <;>
        exact getD_set_self _ _ _ _ (by simp [hlength, hslot])
    rw [show (([] : List Nat) ++ [0x90, 0x00]) = [0x90, 0x00] from rfl]
    exact var_read_none _ tag slot hE hput
  · have hxlen : ¬ x.length = 0 := by simpa using hx0
    cases hp : st.doPtrs.getD slot none with
    | none =>
        apply var_read_fresh _ tag slot x st.pool
          (if x.length % 2 = 1 then [0xff] else []) hE
        · simp only [gpg_do_put_data, hE, hadmin, ac_check_status, if_true, hp,
            if_neg hxlen, if_neg (by omega : ¬ x.length > 255), flash_do_write]
          simp [List.append_assoc]
        · simp only [gpg_do_put_data, hE, hadmin, ac_check_status, if_true, hp,
            if_neg hxlen, if_neg (by omega : ¬ x.length > 255), flash_do_write]
          exact getD_set_self _ _ _ _ (by simp [hlength, hslot])
    | some posOld =>
        apply var_read_fresh _ tag slot x (flash_do_release st.pool posOld)
          (if x.length % 2 = 1 then [0xff] else []) hE
        · simp only [gpg_do_put_data, hE, hadmin, ac_check_status, if_true, hp,
            if_neg hxlen, if_neg (by omega : ¬ x.length > 255), flash_do_write]
          simp [List.append_assoc]
        · simp only [gpg_do_put_data, hE, hadmin, ac_check_status, if_true, hp,
            if_neg hxlen, if_neg (by omega : ¬ x.length > 255), flash_do_write]
          have hrl : (flash_do_release st.pool posOld).length = st.pool.length := by
            simp [flash_do_release]
          rw [hrl]
          exact getD_set_self _ _ _ _ (by simp [hlength, hslot])

/-- Claim C1, corrected: for every VAR data object tag and payload `x` with
`0 ≤ len(x) ≤ 255`, PUT DATA then GET DATA yields the bytes of `x` followed
by `90 00` — without the tag byte and length byte the claim asserts, because
`gpg_do_get_data` calls `copy_do (do_p, 0)` (openpgp-do.c:1186), i.e. with
`with_tag` off; tag-and-length headers appear only for DOs nested inside
compound objects. -/
theorem C1_var_put_get (st : CardState) (tag : Nat) (x : List Nat)
    (htag : tag ∈ varTags)
    (hadmin : st.adminVerified = true)
    (hlength : st.doPtrs.length = 19)
    (hx : x.length ≤ 255) :
    gpg_do_get_data (gpg_do_put_data st tag x x.length).1 tag = .ok (x ++ [0x90, 0x00]) := by
  fin_cases htag <;>
    exact var_put_get st _ _ x rfl hadmin (by norm_num) hlength hx

/-- Claim C1 fails as stated at the spec's own example: after
`put(LOGIN_DATA, "alice@example.test")`, GET DATA returns the 18 payload
bytes followed by `90 00`, not `5E 12 ∥ payload ∥ 90 00`. -/
theorem C1_counterexample :
    gpg_do_get_data (gpg_do_put_data blankCard GPG_DO_LOGIN_DATA aliceLogin 18).1
        GPG_DO_LOGIN_DATA
      = .ok (aliceLogin ++ [0x90, 0x00]) ∧
    ¬ (gpg_do_get_data (gpg_do_put_data blankCard GPG_DO_LOGIN_DATA aliceLogin 18).1
        GPG_DO_LOGIN_DATA
      = .ok ([0x5e, 0x12] ++ aliceLogin ++ [0x90, 0x00])) := by
  decide

theorem C1_var_put_get_witness :
    gpg_do_get_data (gpg_do_put_data blankCard GPG_DO_LOGIN_DATA aliceLogin
        aliceLogin.length).1 GPG_DO_LOGIN_DATA = .ok (aliceLogin ++ [0x90, 0x00]) :=
  C1_var_put_get blankCard GPG_DO_LOGIN_DATA aliceLogin (by decide) rfl (by decide) (by decide)

/-! ### Claim C6 -/

/-- Claim C6: GET DATA on the all-CA-fingerprints tag (0x00C6) should, per
the spec, return CA1 ∥ CA2 ∥ CA3; the code instead returns CA1 ∥ CA2 ∥ CA2,
because `do_cafp_all` reads `NR_DO_CAFP_2` twice and never `NR_DO_CAFP_3`
(openpgp-do.c:363,370) — the typo the spec itself flags (§9).  On a card
holding three distinct fingerprints the response repeats the second and
omits the third. -/
theorem C6_cafp_all_bug :
    gpg_do_get_data cafpCard GPG_DO_CAFP_ALL
      = .ok (List.replicate 20 0x11 ++ List.replicate 20 0x22 ++ List.replicate 20 0x22
             ++ [0x90, 0x00]) ∧
    ¬ (gpg_do_get_data cafpCard GPG_DO_CAFP_ALL
      = .ok (List.replicate 20 0x11 ++ List.replicate 20 0x22 ++ List.replicate 20 0x33
             ++ [0x90, 0x00])) := by
  decide

/-! ### Claim C7 -/

/-- Claim C7: compaction followed by a fresh scan preserves the DO payloads,
the PW1-lifetime flag, the PIN-error counter values, `num_prv_keys` and
`data_objects_number_of_bytes` — but NOT the digital-signature counter: at
`dsc = 1025` the rescan reads 1024, because
`gpg_write_digital_signature_counter` writes the constant
`hw1 = NR_COUNTER_DS_LSB` when the upper 14 bits are non-zero
(openpgp-do.c:51), discarding the low 10 bits. -/
theorem C7_compact_scan_bug :
    c7Pre.dsc = 1025 ∧ c7Post.dsc = 1024 ∧ c7Post.dsc ≠ c7Pre.dsc ∧
    c7Post.doPtr = c7Pre.doPtr ∧
    c7Post.pw1 = c7Pre.pw1 ∧
    (∀ i, i < 3 → cnt123CellValue (c7Post.cntCells.getD i none)
        = cnt123CellValue (c7Pre.cntCells.getD i none)) ∧
    c7Post.numPrvKeys = c7Pre.numPrvKeys ∧
    c7Post.dataBytes = c7Pre.dataBytes := by
  decide

/-! ### Claim C8 -/

/-- Claim C8: for every catalog entry whose read access level is `NEVER`
(Resetting Code 0x00D3, Key Import 0x3FFF, Cardholder Certificate 0x7F21),
GET DATA returns the security-failure status in every authentication
state. -/
theorem C8_read_never (st : CardState) (tag : Nat)
    (h : tag ∈ [GPG_DO_RESETTING_CODE, GPG_DO_KEY_IMPORT, GPG_DO_CH_CERTIFICATE]) :
    gpg_do_get_data st tag = .securityFailure := by
  fin_cases h <;> rfl

theorem C8_read_never_witness :
    gpg_do_get_data blankCard GPG_DO_RESETTING_CODE = .securityFailure :=
  C8_read_never blankCard GPG_DO_RESETTING_CODE (by decide)

/-! ### Claim C9 -/

theorem gpg_do_write_simple_none (st : CardState) (nr : Nat) :
    gpg_do_write_simple st nr none =
      { st with
        pool := (match st.doPtrs.getD (nr - NR_DO__FIRST__) none with
                 | some pos => flash_do_release st.pool pos
                 | none => st.pool),
        doPtrs := st.doPtrs.set (nr - NR_DO__FIRST__) none } := by
  unfold gpg_do_write_simple
  cases h : st.doPtrs.getD (nr - NR_DO__FIRST__) none <;> simp [h]

/-- Claim C9: the deletion branch of `proc_key_import` decrements
`num_prv_keys` even when the selected role holds no key (here: deleting the
decryption key while its `do_ptr` slot is empty), reports success, and when
the count falls to zero erases the PW1 and RC keystrings even though other
roles (the signature slot, untouched here) may still hold keys.  The
invariant "`num_prv_keys` = number of live private-key DOs" is therefore not
preserved. -/
theorem C9_key_import_delete (st : CardState) (data : List Nat) (len : Nat)
    (hlen : len ≤ 22)
    (hsel : data.getD 4 0xff = 0xb8)
    (habsent : st.doPtrs.getD (NR_DO_PRVKEY_DEC - NR_DO__FIRST__) none = none)
    (hlength : st.doPtrs.length = 19) :
    (proc_key_import st data len).2 = .success ∧
    (proc_key_import st data len).1.numPrvKeys = st.numPrvKeys - 1 ∧
    (st.numPrvKeys = 1 →
      (proc_key_import st data len).1.doPtrs.getD
        (NR_DO_KEYSTRING_PW1 - NR_DO__FIRST__) none = none ∧
      (proc_key_import st data len).1.doPtrs.getD
        (NR_DO_KEYSTRING_RC - NR_DO__FIRST__) none = none) ∧
    (proc_key_import st data len).1.doPtrs.getD
      (NR_DO_PRVKEY_SIG - NR_DO__FIRST__) none
      = st.doPtrs.getD (NR_DO_PRVKEY_SIG - NR_DO__FIRST__) none := by
  have hkk : kk_nr_of_byte 0xb8 = NR_DO_PRVKEY_DEC := rfl
  simp only [proc_key_import, if_pos hlen, proc_key_import_delete, hsel, hkk, habsent]
  by_cases hnum : st.numPrvKeys - 1 = 0
  · rw [if_pos hnum]
    simp [gpg_do_write_simple_none, hnum, NR_DO_KEYSTRING_PW1, NR_DO_KEYSTRING_RC,
      NR_DO_PRVKEY_SIG, NR_DO_PRVKEY_DEC, NR_DO__FIRST__,
      List.getD_eq_getElem?_getD, List.getElem?_set_self, List.getElem?_set_ne, hlength]
  · rw [if_neg hnum]
    simp [NR_DO_KEYSTRING_PW1, NR_DO_KEYSTRING_RC,
      NR_DO_PRVKEY_SIG, NR_DO_PRVKEY_DEC, NR_DO__FIRST__,
      List.getD_eq_getElem?_getD, List.getElem?_set_ne, hlength]
    intro h1
    exfalso; omega

theorem C9_key_import_delete_witness :
    (proc_key_import
      { blankCard with
          pool := [NR_DO_PRVKEY_SIG, 4, 1, 2, 3, 4] ++ [NR_DO_KEYSTRING_PW1, 2, 9, 9]
          doPtrs := ((List.replicate 19 none).set 16 (some 1)).set 14 (some 7)
          numPrvKeys := 1 }
      [0x4d, 0x02, 0xb8, 0x00, 0xb8, 0x00] 6).2 = .success ∧
    (proc_key_import
      { blankCard with
          pool := [NR_DO_PRVKEY_SIG, 4, 1, 2, 3, 4] ++ [NR_DO_KEYSTRING_PW1, 2, 9, 9]
          doPtrs := ((List.replicate 19 none).set 16 (some 1)).set 14 (some 7)
          numPrvKeys := 1 }
      [0x4d, 0x02, 0xb8, 0x00, 0xb8, 0x00] 6).1.numPrvKeys
      = ({ blankCard with
          pool := [NR_DO_PRVKEY_SIG, 4, 1, 2, 3, 4] ++ [NR_DO_KEYSTRING_PW1, 2, 9, 9]
          doPtrs := ((List.replicate 19 none).set 16 (some 1)).set 14 (some 7)
          numPrvKeys := 1 } : CardState).numPrvKeys - 1 ∧
    (({ blankCard with
          pool := [NR_DO_PRVKEY_SIG, 4, 1, 2, 3, 4] ++ [NR_DO_KEYSTRING_PW1, 2, 9, 9]
          doPtrs := ((List.replicate 19 none).set 16 (some 1)).set 14 (some 7)
          numPrvKeys := 1 } : CardState).numPrvKeys = 1 →
      (proc_key_import
        { blankCard with
            pool := [NR_DO_PRVKEY_SIG, 4, 1, 2, 3, 4] ++ [NR_DO_KEYSTRING_PW1, 2, 9, 9]
            doPtrs := ((List.replicate 19 none).set 16 (some 1)).set 14 (some 7)
            numPrvKeys := 1 }
        [0x4d, 0x02, 0xb8, 0x00, 0xb8, 0x00] 6).1.doPtrs.getD
          (NR_DO_KEYSTRING_PW1 - NR_DO__FIRST__) none = none ∧
      (proc_key_import
        { blankCard with
            pool := [NR_DO_PRVKEY_SIG, 4, 1, 2, 3, 4] ++ [NR_DO_KEYSTRING_PW1, 2, 9, 9]
            doPtrs := ((List.replicate 19 none).set 16 (some 1)).set 14 (some 7)
            numPrvKeys := 1 }
        [0x4d, 0x02, 0xb8, 0x00, 0xb8, 0x00] 6).1.doPtrs.getD
          (NR_DO_KEYSTRING_RC - NR_DO__FIRST__) none = none) ∧
    (proc_key_import
      { blankCard with
          pool := [NR_DO_PRVKEY_SIG, 4, 1, 2, 3, 4] ++ [NR_DO_KEYSTRING_PW1, 2, 9, 9]
          doPtrs := ((List.replicate 19 none).set 16 (some 1)).set 14 (some 7)
          numPrvKeys := 1 }
      [0x4d, 0x02, 0xb8, 0x00, 0xb8, 0x00] 6).1.doPtrs.getD
        (NR_DO_PRVKEY_SIG - NR_DO__FIRST__) none
      = ({ blankCard with
          pool := [NR_DO_PRVKEY_SIG, 4, 1, 2, 3, 4] ++ [NR_DO_KEYSTRING_PW1, 2, 9, 9]
          doPtrs := ((List.replicate 19 none).set 16 (some 1)).set 14 (some 7)
          numPrvKeys := 1 } : CardState).doPtrs.getD
        (NR_DO_PRVKEY_SIG - NR_DO__FIRST__) none :=
  C9_key_import_delete _ _ 6 (by decide) (by decide) (by decide) (by decide)

/-! ### Claim C10 -/

/-- Claim C10: PUT DATA on a VAR tag holding a live value, with a payload
longer than 255 bytes, releases the old cell before validating the length,
reports memory failure, and leaves the `do_ptr` slot pointing at the
released cell (the result state differs from the input only in the released
pool bytes).  The released header's length byte is 0, so a subsequent GET
DATA reads the released cell's contents — an empty body — and the
pre-existing value is lost. -/
theorem C10_put_var_release (st : CardState) (tag slot pos len : Nat) (data : List Nat)
    (hE : get_do_entry tag = some ⟨tag, .varK, .always, .adminAuthorized, .objVar slot⟩)
    (hadmin : st.adminVerified = true)
    (hptr : st.doPtrs.getD slot none = some pos)
    (hpos : pos < st.pool.length)
    (hlen : len > 255) :
    gpg_do_put_data st tag data len
      = ({ st with pool := flash_do_release st.pool pos }, .memoryFailure) ∧
    (flash_do_release st.pool pos).getD pos 0xff = 0 ∧
    gpg_do_get_data { st with pool := flash_do_release st.pool pos } tag
      = .ok (listSlice (flash_do_release st.pool pos) (pos + 1)
              ((flash_do_release st.pool pos).getD pos 0xff) ++ [0x90, 0x00]) := by
  have hz : (flash_do_release st.pool pos).getD pos 0xff = 0 := by
    unfold flash_do_release
    rw [getD_set_self]
    simpa using hpos
  refine ⟨?_, hz, ?_⟩
  · simp only [gpg_do_put_data, hE, hadmin, ac_check_status, hptr]
    rw [if_neg (by omega : ¬ len = 0), if_pos hlen]
    simp
  · simp only [gpg_do_get_data, hE, copy_do, hadmin, ac_check_status, hptr, copy_do_1]
    norm_num

theorem C10_put_var_release_witness :
    gpg_do_put_data
        { blankCard with pool := [NR_DO_LOGIN_DATA, 2, 0x61, 0x62]
                         doPtrs := (List.replicate 19 none).set 10 (some 1) }
        GPG_DO_LOGIN_DATA (List.replicate 256 0x7a) 256
      = ({ { blankCard with pool := [NR_DO_LOGIN_DATA, 2, 0x61, 0x62]
                            doPtrs := (List.replicate 19 none).set 10 (some 1) } with
             pool := flash_do_release [NR_DO_LOGIN_DATA, 2, 0x61, 0x62] 1 },
         .memoryFailure) ∧
    (flash_do_release [NR_DO_LOGIN_DATA, 2, 0x61, 0x62] 1).getD 1 0xff = 0 ∧
    gpg_do_get_data
        { { blankCard with pool := [NR_DO_LOGIN_DATA, 2, 0x61, 0x62]
                           doPtrs := (List.replicate 19 none).set 10 (some 1) } with
            pool := flash_do_release [NR_DO_LOGIN_DATA, 2, 0x61, 0x62] 1 }
        GPG_DO_LOGIN_DATA
      = .ok (listSlice (flash_do_release [NR_DO_LOGIN_DATA, 2, 0x61, 0x62] 1) 2
              ((flash_do_release [NR_DO_LOGIN_DATA, 2, 0x61, 0x62] 1).getD 1 0xff)
             ++ [0x90, 0x00]) :=
  C10_put_var_release _ GPG_DO_LOGIN_DATA 10 1 256 (List.replicate 256 0x7a)
    rfl rfl (by decide) (by decide) (by decide)

end Gnuk
